import Mathlib

/-
  Verification of the browser-fs-core virtual filesystem against its
  natural-language specification.

  The development shallowly embeds the relevant source modules:
  JS objects and Maps become association lists over String keys, machine
  numbers become Nat (with explicit 32-bit masks where JS coerces),
  Uint8Array payloads of the key-value store become a typed StoreValue
  (the utf-8 / JSON / inode byte codecs are inverse pairs supplied by
  external collaborators, so the store is modelled at the decoded level),
  and fallible code returns Except.  Nondeterministic inputs (Date.now,
  randomUUID) are passed explicitly: the current time is a Nat parameter,
  and randomUUID is modelled as a supply of keys not present in the store,
  matching the source's documented assumption that collisions are
  "exceedingly unlikely" (and rerolled).
-/

set_option maxHeartbeats 1000000

namespace BFS

/- ===================================================================
   Association lists: the model of JS objects / Maps with string keys.
   `alistSet` updates in place or appends at the end, like JS property
   assignment; `alistErase` is the JS delete operator.
   =================================================================== -/

def alistLookup {α : Type} : List (String × α) → String → Option α
  | [], _ => none
  | (k, v) :: rest, key => if k = key then some v else alistLookup rest key

def alistSet {α : Type} : List (String × α) → String → α → List (String × α)
  | [], key, v => [(key, v)]
  | (k, w) :: rest, key, v =>
      if k = key then (k, v) :: rest else (k, w) :: alistSet rest key v

def alistErase {α : Type} : List (String × α) → String → List (String × α)
  | [], _ => []
  | (k, v) :: rest, key =>
      if k = key then alistErase rest key else (k, v) :: alistErase rest key

/- JS truthiness test on a directory-listing lookup: `if (listing[name])`
   is false both when the property is missing and when it is ''. -/
def jsTruthyGet (l : List (String × String)) (key : String) : Option String :=
  match alistLookup l key with
  | some v => if v = "" then none else some v
  | none => none

/- ===================================================================
   String utilities.  The path helpers dirname/basename/join/resolve are
   an external collaborator of the repository (emulation/path.js is not
   under src/).  Modelled from the spec: Node's posix path semantics on
   absolute normalized forward-slash paths.  All functions are written by
   structural recursion over the character list so that concrete witness
   computations reduce.
   =================================================================== -/

def splitChar (sep : Char) : List Char → List (List Char)
  | [] => [[]]
  | c :: cs =>
      let r := splitChar sep cs
      if c = sep then [] :: r
      else
        match r with
        | h :: t => (c :: h) :: t
        | [] => [[c]]

def strSegs (s : String) : List String :=
  (splitChar '/' s.data).map fun l => String.mk l

/-- Modelled from the spec: Node posix `dirname`. -/
def dirname (p : String) : String :=
  let parts := strSegs p
  let front := parts.dropLast
  if front = [] then "."
  else if front = [""] then "/"
  else String.intercalate "/" front

/-- Modelled from the spec: Node posix `basename`. -/
def basename (p : String) : String :=
  (strSegs p).getLastD ""

/-- Modelled from the spec: path join/resolve as used only to build error
payloads (`resolve(parent, filename)` on an absolute parent). -/
def joinPath (parent filename : String) : String :=
  if parent = "/" then "/" ++ filename else parent ++ "/" ++ filename

def strLen (s : String) : Nat := s.data.length

/-- JS `a.startsWith(b)` (also `a.indexOf(b) === 0`). -/
def strStartsWith (s pre : String) : Bool := pre.data.isPrefixOf s.data

/-- JS `s.slice(n)`. -/
def strDropLen (s : String) (n : Nat) : String := String.mk (s.data.drop n)

/-- JS `s.includes(c)` for a single character. -/
def strContainsChar (s : String) (c : Char) : Bool := s.data.contains c

/- ===================================================================
   Errors.  ApiError carries a libc-style code and the offending path;
   plain JS exceptions (Error / RangeError / SyntaxError) are a second
   constructor so the two are never conflated.
   =================================================================== -/

inductive ErrorCode : Type
  | EPERM | ENOENT | EIO | EBADF | EACCES | EBUSY | EEXIST
  | ENOTDIR | EISDIR | EINVAL | EFBIG | ENOSPC | EROFS | ENOTEMPTY | ENOTSUP
  deriving DecidableEq, Repr

structure ApiError where
  code : ErrorCode
  path : String
  deriving DecidableEq, Repr

inductive Failure : Type
  | api (e : ApiError)
  | jsError (msg : String)
  deriving DecidableEq, Repr

def Failure.isEACCES : Failure → Bool
  | .api e => e.code = ErrorCode.EACCES
  | .jsError _ => false

def exceptIsOk {ε α : Type} : Except ε α → Bool
  | .ok _ => true
  | .error _ => false

/- ===================================================================
   Credentials (cred.js) and mode constants (emulation/constants.js,
   standard POSIX values).
   =================================================================== -/

structure Cred where
  uid : Nat
  gid : Nat
  suid : Nat
  sgid : Nat
  euid : Nat
  egid : Nat
  deriving DecidableEq, Repr

def Cred.Root : Cred := ⟨0, 0, 0, 0, 0, 0⟩

def S_IFMT : Nat := 0xF000
def S_IFREG : Nat := 0x8000
def S_IFDIR : Nat := 0x4000
def S_IFLNK : Nat := 0xA000
def R_OK : Nat := 4
def W_OK : Nat := 2

/- JS `x & ~S_IFMT` on 32-bit integers. -/
def notIFMT32 : Nat := 0xFFFF0FFF

/- ===================================================================
   Stats (stats.js).  Fields unused by any claim (dev, ino, rdev, nlink,
   blksize, blocks, birthtime, fileData) are omitted; times are integer
   milliseconds (exactly representable in f64).
   =================================================================== -/

structure Stats where
  size : Nat
  mode : Nat
  atimeMs : Nat
  mtimeMs : Nat
  ctimeMs : Nat
  uid : Nat
  gid : Nat
  deriving DecidableEq, Repr

/-- The Stats constructor: a zero mode falls back to a default by item
type, and missing type bits are filled in from `itemType`. -/
def mkStats (itemType : Nat) (size mode atimeMs mtimeMs ctimeMs uid gid : Nat) : Stats :=
  let m0 := if mode ≠ 0 then mode
            else if itemType = S_IFREG then 0o644 else 0o777
  let m1 := if m0 &&& S_IFMT = 0 then m0 ||| itemType else m0
  ⟨size, m1, atimeMs, mtimeMs, ctimeMs, uid, gid⟩

def Stats.isFile (s : Stats) : Bool := s.mode &&& S_IFMT = S_IFREG

def Stats.isDirectory (s : Stats) : Bool := s.mode &&& S_IFMT = S_IFDIR

/-- StatsCommon.hasAccess, translated bit for bit (including the
effective-root bypass and the nibble-aligned permission extraction). -/
def Stats.hasAccess (s : Stats) (mode : Nat) (cred : Cred) : Bool :=
  if cred.euid = 0 || cred.egid = 0 then
    true
  else
    let perms := s.mode &&& notIFMT32
    let uMode : Nat :=
      if cred.euid = s.uid then (mode ^^^ ((0xf00 &&& perms) >>> 8)) &&& mode else 0xf
    let gMode : Nat :=
      if cred.egid = s.gid then (mode ^^^ ((0xf0 &&& perms) >>> 4)) &&& mode else 0xf
    let wMode : Nat := (mode ^^^ (0xf &&& perms)) &&& mode
    decide (uMode &&& gMode &&& wMode = 0)

/-- Stats.clone (used by PreloadFile.stat). -/
def Stats.clone (s : Stats) : Stats :=
  mkStats (s.mode &&& S_IFMT) s.size (s.mode &&& notIFMT32)
    s.atimeMs s.mtimeMs s.ctimeMs s.uid s.gid

/- ===================================================================
   Byte-level Stats serialization (stats.js Stats.serialize/Deserialize).
   DataView writes and reads check bounds and raise RangeError outside
   them.  Bytes are Nats < 256; the f64 payload is the IEEE-754 encoding
   of a natural number (exact below 2^53, the range of ms timestamps).
   =================================================================== -/

def leBytes : Nat → Nat → List Nat
  | 0, _ => []
  | n + 1, v => (v % 256) :: leBytes n (v / 256)

def float64bits (n : Nat) : Nat :=
  if n = 0 then 0
  else
    let e := Nat.log2 n
    if e ≤ 52 then (e + 1023) * 2 ^ 52 + (n - 2 ^ e) * 2 ^ (52 - e)
    else (e + 1023) * 2 ^ 52 + (n / 2 ^ (e - 52) - 2 ^ 52)

/-- Overwrite `src` into `buf` starting at `off` (no bounds logic here;
callers check bounds first, as DataView does). -/
def spliceBytes (buf : List Nat) (off : Nat) (src : List Nat) : List Nat :=
  buf.take off ++ src ++ buf.drop (off + src.length)

/-- DataView.setUint32(off, v, true): RangeError when out of bounds. -/
def dvSetUint32 (buf : List Nat) (off v : Nat) : Except Failure (List Nat) :=
  if off + 4 ≤ buf.length then .ok (spliceBytes buf off (leBytes 4 (v % 2 ^ 32)))
  else .error (.jsError "RangeError: Offset is outside the bounds of the DataView")

/-- DataView.setFloat64(off, v, true) for a natural-number value. -/
def dvSetFloat64 (buf : List Nat) (off v : Nat) : Except Failure (List Nat) :=
  if off + 8 ≤ buf.length then .ok (spliceBytes buf off (leBytes 8 (float64bits v)))
  else .error (.jsError "RangeError: Offset is outside the bounds of the DataView")

/-- Stats.serialize: allocates a 32-byte buffer, then writes
u32 size @0, u32 mode @4, f64 atime @8, f64 mtime @16, f64 ctime @24,
u32 uid @32, u32 gid @36 — the last two past the end of the buffer. -/
def Stats.serialize (s : Stats) : Except Failure (List Nat) := do
  let b0 := List.replicate 32 0
  let b1 ← dvSetUint32 b0 0 s.size
  let b2 ← dvSetUint32 b1 4 s.mode
  let b3 ← dvSetFloat64 b2 8 s.atimeMs
  let b4 ← dvSetFloat64 b3 16 s.mtimeMs
  let b5 ← dvSetFloat64 b4 24 s.ctimeMs
  let b6 ← dvSetUint32 b5 32 s.uid
  let b7 ← dvSetUint32 b6 36 s.gid
  return b7

def dvGetUint32 (buf : List Nat) (off : Nat) : Except Failure Nat :=
  if off + 4 ≤ buf.length then
    .ok ((buf.drop off).take 4 |>.foldr (fun b acc => acc * 256 + b) 0)
  else .error (.jsError "RangeError: Offset is outside the bounds of the DataView")

/-- Stats.Deserialize reads the same layout (offsets 32 and 36 are out of
bounds on a 32-byte payload as well). -/
def Stats.Deserialize (buf : List Nat) (atime mtime ctime : Nat) : Except Failure Stats := do
  let size ← dvGetUint32 buf 0
  let mode ← dvGetUint32 buf 4
  let uid ← dvGetUint32 buf 32
  let gid ← dvGetUint32 buf 36
  return mkStats (mode &&& S_IFMT) size (mode &&& notIFMT32) atime mtime ctime uid gid

/- ===================================================================
   FileFlag (file.js).  Only the string form is needed by the claims;
   getFileFlag validates against the twelve legal strings.
   =================================================================== -/

inductive ActionType : Type
  | NOP | THROW_EXCEPTION | TRUNCATE_FILE | CREATE_FILE
  deriving DecidableEq, Repr

structure FileFlag where
  flagStr : String
  deriving DecidableEq, Repr

def validFlagStrs : List String :=
  ["r", "r+", "rs", "rs+", "w", "wx", "w+", "wx+", "a", "ax", "a+", "ax+"]

def getFileFlag (flag : String) : Except Failure FileFlag :=
  if validFlagStrs.contains flag then .ok ⟨flag⟩
  else .error (.api ⟨.EINVAL, flag⟩)

def FileFlag.isReadable (f : FileFlag) : Bool :=
  strContainsChar f.flagStr 'r' || strContainsChar f.flagStr '+'

def FileFlag.isWriteable (f : FileFlag) : Bool :=
  strContainsChar f.flagStr 'w' || strContainsChar f.flagStr 'a' ||
    strContainsChar f.flagStr '+'

def FileFlag.isTruncating (f : FileFlag) : Bool := strContainsChar f.flagStr 'w'

def FileFlag.isAppendable (f : FileFlag) : Bool := strContainsChar f.flagStr 'a'

def FileFlag.isSynchronous (f : FileFlag) : Bool := strContainsChar f.flagStr 's'

def FileFlag.isExclusive (f : FileFlag) : Bool := strContainsChar f.flagStr 'x'

/-- getMode: two shifts place readable at bit 2 and writeable at bit 1. -/
def FileFlag.getMode (f : FileFlag) : Nat :=
  (if f.isReadable then 4 else 0) + (if f.isWriteable then 2 else 0)

def FileFlag.pathExistsAction (f : FileFlag) : ActionType :=
  if f.isExclusive then .THROW_EXCEPTION
  else if f.isTruncating then .TRUNCATE_FILE
  else .NOP

def FileFlag.pathNotExistsAction (f : FileFlag) : ActionType :=
  if (f.isWriteable || f.isAppendable) && f.flagStr ≠ "r+" then .CREATE_FILE
  else .THROW_EXCEPTION

/- ===================================================================
   Per-path mutex (mutex.js).  The lock table maps a path to the FIFO of
   pending resolvers (modelled by caller-chosen ids).  `lock` returns,
   besides the new table, whether the promise executor invoked the
   resolver synchronously (`resolvedNow`) and whether it stored it in a
   queue (`queued`): the source's no-entry branch inserts an empty queue
   and returns without calling resolve, so it does neither.
   =================================================================== -/

structure Mutex where
  locks : List (String × List Nat)
  deriving DecidableEq, Repr

structure LockResult where
  m : Mutex
  resolvedNow : Bool
  queued : Option Nat
  deriving DecidableEq, Repr

def Mutex.lock (mu : Mutex) (path : String) (rid : Nat) : LockResult :=
  match alistLookup mu.locks path with
  | some q => ⟨⟨alistSet mu.locks path (q ++ [rid])⟩, false, some rid⟩
  | none => ⟨⟨alistSet mu.locks path []⟩, false, none⟩

/-- unlock: pops the next waiter (scheduled via setTimeout, returned as
the second component) or removes the entry; throws on a non-locked path. -/
def Mutex.unlock (mu : Mutex) (path : String) : Except Failure (Mutex × Option Nat) :=
  match alistLookup mu.locks path with
  | none => .error (.jsError "unlock of a non-locked mutex")
  | some [] => .ok (⟨alistErase mu.locks path⟩, none)
  | some (next :: rest) => .ok (⟨alistSet mu.locks path rest⟩, some next)

def Mutex.tryLock (mu : Mutex) (path : String) : Mutex × Bool :=
  match alistLookup mu.locks path with
  | some _ => (mu, false)
  | none => (⟨alistSet mu.locks path []⟩, true)

def Mutex.isLocked (mu : Mutex) (path : String) : Bool :=
  (alistLookup mu.locks path).isSome

/- ===================================================================
   LockedFS (backends/Locked.js).  Every async operation is the straight
   line `await lock(p); await delegate; unlock(p)` with no try/finally,
   so when the delegate throws the unlock statement is never reached.
   `renameBody` is the body of LockedFS.rename from the point where the
   lock on oldPath has been granted, parametrized by the outcome of the
   delegated `this._fs.rename` call.
   =================================================================== -/

def LockedFS.renameBody (mu : Mutex) (oldPath : String)
    (delegate : Except Failure Unit) : Mutex × Except Failure Unit :=
  match delegate with
  | .error e => (mu, .error e)
  | .ok _ =>
      match mu.unlock oldPath with
      | .error e => (mu, .error e)
      | .ok (mu', _) => (mu', .ok ())

/- ===================================================================
   Overlay existence (backends/OverlayFS.js UnlockedOverlayFS.exists).
   The two layers are abstracted by their exists functions; the deletion
   map is the JS object parsed from the deletion log (entries may be
   true or false; only `=== true` counts as deleted).
   =================================================================== -/

structure OverlayState where
  isInitialized : Bool
  deleteLogError : Option Failure
  deletedFiles : List (String × Bool)
  deriving DecidableEq, Repr

/-- checkInitialized: EPERM before initialize(); a latched deletion-log
error is rethrown (and cleared) on the next call. -/
def OverlayState.checkInitialized (st : OverlayState) :
    OverlayState × Except Failure Unit :=
  if !st.isInitialized then
    (st, .error (.api ⟨.EPERM, "OverlayFS is not initialized"⟩))
  else
    match st.deleteLogError with
    | some e => ({ st with deleteLogError := none }, .error e)
    | none => (st, .ok ())

/-- UnlockedOverlayFS.existsSync (the async variant is identical). -/
def overlayExistsSync (st : OverlayState)
    (upperExists lowerExists : String → Cred → Bool)
    (p : String) (cred : Cred) : OverlayState × Except Failure Bool :=
  match st.checkInitialized with
  | (st', .error e) => (st', .error e)
  | (st', .ok _) =>
      (st', .ok (upperExists p cred ||
        (lowerExists p cred && !(alistLookup st.deletedFiles p = some true))))

/-- The spec's own formula for overlay existence, written from its words:
"`exists(p)` is `upper.exists(p) || (lower.exists(p) && !deletedFiles[p])`"
where the deletion map marks p as deleted. -/
def specOverlayExists (upper lower markedDeleted : Bool) : Bool :=
  upper || (lower && !markedDeleted)

/- ===================================================================
   JS typed-array primitives used by PreloadFile (file.js).  Bytes are
   Nats; `jsSlice` is Uint8Array.slice (clamping), `jsSet` is
   Uint8Array.set (RangeError when the source overruns the target).
   =================================================================== -/

def jsSlice (l : List Nat) (a b : Nat) : List Nat := (l.take b).drop a

def jsSet (target src : List Nat) (start : Nat) : Except Failure (List Nat) :=
  if start + src.length ≤ target.length then
    .ok (target.take start ++ src ++ target.drop (start + src.length))
  else .error (.jsError "RangeError: offset is out of bounds")

/- ===================================================================
   PreloadFile (file.js): an in-memory buffered file handle.
   =================================================================== -/

structure PreloadFile where
  path : String
  flag : FileFlag
  stat : Stats
  buffer : List Nat
  pos : Nat
  dirty : Bool
  deriving DecidableEq, Repr

/-- The PreloadFile constructor: rejects a readable handle whose buffer
length disagrees with the Stats size. -/
def mkPreloadFile (path : String) (flag : FileFlag) (stat : Stats)
    (contents : List Nat) : Except Failure PreloadFile :=
  if stat.size ≠ contents.length && flag.isReadable then
    .error (.jsError "Invalid buffer: buffer length and Stats size differ")
  else .ok ⟨path, flag, stat, contents, 0, false⟩

/-- getPos: appendable handles always write at the end of the file. -/
def PreloadFile.getPos (f : PreloadFile) : Nat :=
  if f.flag.isAppendable then f.stat.size else f.pos

/-- PreloadFile.writeSync up to the subclass syncSync call.  Returns the
updated handle, the return value, and whether the synchronous-flag branch
requested a syncSync (in which case the caller runs it and returns the
value unchanged).  Note the source computes `len = this._buffer.length`
(the full post-write buffer length) and advances the position by that
amount, while returning `length` in the non-synchronous branch. -/
def PreloadFile.writeSyncP (f0 : PreloadFile) (buffer : List Nat)
    (offset length : Nat) (position : Option Nat) (now : Nat) :
    PreloadFile × Except Failure (Nat × Bool) :=
  let f := { f0 with dirty := true }
  let pos := match position with
             | some p => p
             | none => f.getPos
  if !f.flag.isWriteable then
    (f, .error (.api ⟨.EPERM, "File not opened with a writeable mode."⟩))
  else
    let endFp := pos + length
    let f :=
      if endFp > f.stat.size then
        let f := { f with stat := { f.stat with size := endFp } }
        if endFp > f.buffer.length then
          { f with buffer := f.buffer ++ List.replicate (endFp - f.buffer.length) 0 }
        else f
      else f
    match jsSet f.buffer (jsSlice buffer offset (offset + length)) pos with
    | .error e => (f, .error e)
    | .ok buf' =>
        let f := { f with buffer := buf' }
        let len := f.buffer.length
        let f := { f with stat := { f.stat with mtimeMs := now } }
        if f.flag.isSynchronous then (f, .ok (len, true))
        else ({ f with pos := pos + len }, .ok (length, false))

/-- PreloadFile.readSync.  Kept byte for byte, including the transposed
`buffer.set(this._buffer.slice(offset, offset + length), position)` call
(source reads from the file buffer at `offset` and stores at `position`
in the destination).  Returns the updated handle, the destination buffer
after the copy, and the byte count. -/
def PreloadFile.readSync (f : PreloadFile) (buffer : List Nat)
    (offset length0 : Nat) (position : Option Nat) (now : Nat) :
    PreloadFile × Except Failure (List Nat × Nat) :=
  if !f.flag.isReadable then
    (f, .error (.api ⟨.EPERM, "File not opened with a readable mode."⟩))
  else
    let pos := match position with
               | some p => p
               | none => f.getPos
    let length := if pos + length0 > f.stat.size then f.stat.size - pos else length0
    match jsSet buffer (jsSlice f.buffer offset (offset + length)) pos with
    | .error e => (f, .error e)
    | .ok buf' =>
        let f := { f with stat := { f.stat with atimeMs := now }, pos := pos + length }
        (f, .ok (buf', length))

/- ===================================================================
   The key-value store (backends/InMemory.js is not under src/; modelled
   from the spec and from InMemory.d.ts: a sync key-value store backed by
   a map, `put` refusing existing keys unless `overwrite`).  Values are
   modelled at the decoded level: a raw data blob, a JSON directory
   listing, or a serialized inode — the utf-8/JSON/38-byte codecs being
   inverse pairs supplied by external collaborators.  A value read in a
   role it was not written in (e.g. Inode.Deserialize of file bytes)
   yields junk or a SyntaxError in the source; the model rejects it with
   a jsError, and no settled claim exercises that case.

   The engine always uses SimpleSyncRWTransaction, whose get/put/del
   delegate directly to the live store and whose commit is a no-op; its
   rollback stash matters only for `abort`, which the engine invokes only
   in catch-blocks of store operations that cannot throw on the in-memory
   store (put returns false instead of throwing).  Transactions are
   therefore modelled as operations on the store itself.
   =================================================================== -/

structure Inode where
  id : String
  size : Nat
  mode : Nat
  atime : Nat
  mtime : Nat
  ctime : Nat
  uid : Nat
  gid : Nat
  deriving DecidableEq, Repr

inductive StoreValue : Type
  | blob (data : List Nat)
  | dir (listing : List (String × String))
  | node (i : Inode)
  deriving DecidableEq, Repr

/-- JSON.stringify of a directory listing (names and ids contain no
characters needing escapes). -/
def jsonStringify (l : List (String × String)) : String :=
  "\x7b" ++ String.intercalate ","
    (l.map fun kv => "\"" ++ kv.1 ++ "\"" ++ ":" ++ "\"" ++ kv.2 ++ "\"") ++ "\x7d"

/-- The byte length of the encoded value (inode format: 38 fixed bytes
then the utf-8 id). -/
def StoreValue.byteLength : StoreValue → Nat
  | .blob d => d.length
  | .dir l => strLen (jsonStringify l)
  | .node i => 38 + strLen i.id

structure KVStore where
  entries : List (String × StoreValue)
  deriving DecidableEq, Repr

def KVStore.get (s : KVStore) (k : String) : Option StoreValue :=
  alistLookup s.entries k

def KVStore.set (s : KVStore) (k : String) (v : StoreValue) : KVStore :=
  ⟨alistSet s.entries k v⟩

/-- InMemoryStore.put: refuses an existing key unless `overwrite`. -/
def KVStore.put (s : KVStore) (k : String) (v : StoreValue) (overwrite : Bool) :
    KVStore × Bool :=
  if !overwrite && (s.get k).isSome then (s, false)
  else (s.set k v, true)

def KVStore.del (s : KVStore) (k : String) : KVStore :=
  ⟨alistErase s.entries k⟩

def ROOT_NODE_ID : String := "/"

/-- randomUUID, modelled as a supply of fresh keys: a string of '#'
characters longer than every key of the store, hence never colliding
(the source rerolls colliding v4 UUIDs). -/
def freshKey (s : KVStore) : String :=
  String.mk (List.replicate (1 + (s.entries.map fun kv => strLen kv.1).sum) '#')

/- ===================================================================
   Inode methods (inode.js).
   =================================================================== -/

def Inode.toStats (i : Inode) : Stats :=
  mkStats (if i.mode &&& 0xf000 = S_IFDIR then S_IFDIR else S_IFREG)
    i.size i.mode i.atime i.mtime i.ctime i.uid i.gid

def Inode.isFile (i : Inode) : Bool := i.mode &&& 0xf000 = S_IFREG

def Inode.isDirectory (i : Inode) : Bool := i.mode &&& 0xf000 = S_IFDIR

/-- Inode.update: syncs fields from a Stats, returning whether anything
changed.  The source checks `uid` twice and never syncs `gid`; the model
keeps that slip. -/
def Inode.update (i : Inode) (stats : Stats) : Inode × Bool :=
  let c1 := i.size ≠ stats.size
  let i := if c1 then { i with size := stats.size } else i
  let c2 := i.mode ≠ stats.mode
  let i := if c2 then { i with mode := stats.mode } else i
  let c3 := i.atime ≠ stats.atimeMs
  let i := if c3 then { i with atime := stats.atimeMs } else i
  let c4 := i.mtime ≠ stats.mtimeMs
  let i := if c4 then { i with mtime := stats.mtimeMs } else i
  let c5 := i.ctime ≠ stats.ctimeMs
  let i := if c5 then { i with ctime := stats.ctimeMs } else i
  let c6 := i.uid ≠ stats.uid
  let i := if c6 then { i with uid := stats.uid } else i
  let c7 := i.uid ≠ stats.uid
  let i := if c7 then { i with uid := stats.uid } else i
  (i, c1 || c2 || c3 || c4 || c5 || c6 || c7)

/- ===================================================================
   SyncKeyValueFileSystem (backends/SyncStore.js).
   =================================================================== -/

/-- getINode: a missing key is ENOENT at path p. -/
def getINode (s : KVStore) (p : String) (id : String) : Except Failure Inode :=
  match s.get id with
  | none => .error (.api ⟨.ENOENT, p⟩)
  | some (.node i) => .ok i
  | some _ => .error (.jsError "Inode.Deserialize of non-inode data")

/-- getDirListing: ENOTDIR unless the inode is a directory, ENOENT when
its data key is missing. -/
def getDirListing (s : KVStore) (p : String) (inode : Inode) :
    Except Failure (List (String × String)) :=
  if !inode.isDirectory then .error (.api ⟨.ENOTDIR, p⟩)
  else
    match s.get inode.id with
    | none => .error (.api ⟨.ENOENT, p⟩)
    | some (.dir l) => .ok l
    | some _ => .error (.jsError "JSON.parse of non-listing data")

/-- The `readDirectory` helper of _findINode: look `filename` up in the
listing of `inode` (at path `parent`), ENOENT on a falsy entry. -/
def readDirectoryStep (s : KVStore) (parent filename : String) (inode : Inode) :
    Except Failure String :=
  match getDirListing s parent inode with
  | .error e => .error e
  | .ok dirList =>
      match jsTruthyGet dirList filename with
      | some id => .ok id
      | none => .error (.api ⟨.ENOENT, joinPath parent filename⟩)

/-- _findINode, by structural recursion on fuel.  The source guards
against non-terminating descents with a `visited` set that raises EIO
"Infinite loop detected while finding inode"; the model reaches the same
error by exhausting fuel, which the wrapper sets high enough that it is
hit exactly when `dirname` stops shrinking the path (the only way the
source's path sequence can repeat). -/
def findINodeIdAux (s : KVStore) : Nat → String → String → Except Failure String
  | 0, parent, filename =>
      .error (.api ⟨ErrorCode.EIO, joinPath parent filename⟩)
  | fuel + 1, parent, filename =>
      if parent = "/" then
        if filename = "" then .ok ROOT_NODE_ID
        else
          match getINode s parent ROOT_NODE_ID with
          | .error e => .error e
          | .ok inode => readDirectoryStep s parent filename inode
      else
        match findINodeIdAux s fuel (dirname parent) (basename parent) with
        | .error e => .error e
        | .ok pid =>
            match getINode s (parent ++ "/" ++ filename) pid with
            | .error e => .error e
            | .ok inode => readDirectoryStep s parent filename inode

def findINodeId (s : KVStore) (parent filename : String) : Except Failure String :=
  findINodeIdAux s (strLen parent + 1) parent filename

/-- findINode: the inode of path p. -/
def findINode (s : KVStore) (p : String) : Except Failure Inode :=
  match findINodeId s (dirname p) (basename p) with
  | .error e => .error e
  | .ok id => getINode s p id

/-- addNewNode: store `data` under a fresh random id. -/
def addNewNode (s : KVStore) (data : StoreValue) : KVStore × String :=
  let currId := freshKey s
  ((s.put currId data false).1, currId)

/-- commitNewFile: create a file or directory inode plus its data blob
and record it in the parent listing.  Write permission on the parent is
required; `/` and existing names are EEXIST. -/
def commitNewFile (s : KVStore) (p : String) (ftype : Nat) (mode : Nat)
    (cred : Cred) (data : StoreValue) (now : Nat) :
    KVStore × Except Failure Inode :=
  let parentDir := dirname p
  let fname := basename p
  match findINode s parentDir with
  | .error e => (s, .error e)
  | .ok parentNode =>
      match getDirListing s parentDir parentNode with
      | .error e => (s, .error e)
      | .ok dirListing =>
          if !(parentNode.toStats.hasAccess 0b0100 cred) then
            (s, .error (.api ⟨.EACCES, p⟩))
          else if p = "/" then (s, .error (.api ⟨.EEXIST, p⟩))
          else if (jsTruthyGet dirListing fname).isSome then
            (s, .error (.api ⟨.EEXIST, p⟩))
          else
            let (s1, dataId) := addNewNode s data
            let fileNode : Inode :=
              ⟨dataId, data.byteLength, mode ||| ftype, now, now, now, cred.uid, cred.gid⟩
            let (s2, fileNodeId) := addNewNode s1 (.node fileNode)
            let dirListing' := alistSet dirListing fname fileNodeId
            let (s3, _) := s2.put parentNode.id (.dir dirListing') true
            (s3, .ok fileNode)

/-- createFileSync: a new empty file opened as a SyncKeyValueFile. -/
def createFileSync (s : KVStore) (p : String) (flag : FileFlag) (mode : Nat)
    (cred : Cred) (now : Nat) : KVStore × Except Failure PreloadFile :=
  match commitNewFile s p S_IFREG mode cred (.blob []) now with
  | (s', .error e) => (s', .error e)
  | (s', .ok newFile) =>
      match mkPreloadFile p flag newFile.toStats [] with
      | .error e => (s', .error e)
      | .ok fd => (s', .ok fd)

/-- openFileSync: open an existing file (EACCES per the flag's mode,
ENOENT when the data blob is missing). -/
def openFileSync (s : KVStore) (p : String) (flag : FileFlag) (cred : Cred) :
    Except Failure PreloadFile :=
  match findINode s p with
  | .error e => .error e
  | .ok node =>
      let data := s.get node.id
      if !(node.toStats.hasAccess flag.getMode cred) then
        .error (.api ⟨.EACCES, p⟩)
      else
        match data with
        | none => .error (.api ⟨.ENOENT, p⟩)
        | some (.blob d) => mkPreloadFile p flag node.toStats d
        | some _ => .error (.jsError "PreloadFile over non-blob data")

/-- statSync: the inode's Stats, readable-permission checked. -/
def statSync (s : KVStore) (p : String) (cred : Cred) : Except Failure Stats :=
  match findINode s p with
  | .error e => .error e
  | .ok node =>
      let stats := node.toStats
      if !(stats.hasAccess R_OK cred) then .error (.api ⟨.EACCES, p⟩)
      else .ok stats

/-- accessSync: EACCES unless the requested access is granted. -/
def accessSync (s : KVStore) (p : String) (mode : Nat) (cred : Cred) :
    Except Failure Unit :=
  match findINode s p with
  | .error e => .error e
  | .ok node =>
      if !(node.toStats.hasAccess mode cred) then .error (.api ⟨.EACCES, p⟩)
      else .ok ()

/-- removeEntry: delete the listing entry, the data blob and the inode
(EISDIR/ENOTDIR enforce the expected type). -/
def removeEntry (s : KVStore) (p : String) (isDir : Bool) (cred : Cred) :
    KVStore × Except Failure Unit :=
  let parent := dirname p
  match findINode s parent with
  | .error e => (s, .error e)
  | .ok parentNode =>
      match getDirListing s parent parentNode with
      | .error e => (s, .error e)
      | .ok parentListing =>
          let fileName := basename p
          match jsTruthyGet parentListing fileName with
          | none => (s, .error (.api ⟨.ENOENT, p⟩))
          | some fileNodeId =>
              match getINode s p fileNodeId with
              | .error e => (s, .error e)
              | .ok fileNode =>
                  if !(fileNode.toStats.hasAccess W_OK cred) then
                    (s, .error (.api ⟨.EACCES, p⟩))
                  else
                    let parentListing' := alistErase parentListing fileName
                    if !isDir && fileNode.isDirectory then
                      (s, .error (.api ⟨.EISDIR, p⟩))
                    else if isDir && !fileNode.isDirectory then
                      (s, .error (.api ⟨.ENOTDIR, p⟩))
                    else
                      let s1 := s.del fileNode.id
                      let s2 := s1.del fileNodeId
                      let (s3, _) := s2.put parentNode.id (.dir parentListing') true
                      (s3, .ok ())

def unlinkSync (s : KVStore) (p : String) (cred : Cred) :
    KVStore × Except Failure Unit :=
  removeEntry s p false cred

def mkdirSync (s : KVStore) (p : String) (mode : Nat) (cred : Cred) (now : Nat) :
    KVStore × Except Failure Unit :=
  match commitNewFile s p S_IFDIR mode cred (.dir []) now with
  | (s', .error e) => (s', .error e)
  | (s', .ok _) => (s', .ok ())

def readdirSync (s : KVStore) (p : String) (cred : Cred) :
    Except Failure (List String) :=
  match findINode s p with
  | .error e => .error e
  | .ok node =>
      if !(node.toStats.hasAccess R_OK cred) then .error (.api ⟨.EACCES, p⟩)
      else
        match getDirListing s p node with
        | .error e => .error e
        | .ok l => .ok (l.map fun kv => kv.1)

/-- makeRootDirectory: bootstrap the root inode if absent. -/
def makeRootDirectory (s : KVStore) (now : Nat) : KVStore :=
  match s.get ROOT_NODE_ID with
  | some _ => s
  | none =>
      let dirInode : Inode := ⟨freshKey s, 4096, 511 ||| S_IFDIR, now, now, now, 0, 0⟩
      let (s1, _) := s.put dirInode.id (.dir []) false
      let (s2, _) := s1.put ROOT_NODE_ID (.node dirInode) false
      s2

/-- The tail of renameSync after the EBUSY guard: fetch the destination
parent (reusing the already-modified source listing when the parents
coincide), delete an existing destination file (EPERM on a directory),
assign the entry and write both listings back. -/
def renameSyncRest (s : KVStore) (newPath : String)
    (oldDirNode : Inode) (oldDirList' : List (String × String)) (nodeId : String)
    (oldParent newParent newName : String) : KVStore × Except Failure Unit :=
  let fetched : Except Failure (Inode × List (String × String)) :=
    if newParent = oldParent then .ok (oldDirNode, oldDirList')
    else
      match findINode s newParent with
      | .error e => .error e
      | .ok n =>
          match getDirListing s newParent n with
          | .error e => .error e
          | .ok l => .ok (n, l)
  match fetched with
  | .error e => (s, .error e)
  | .ok (newDirNode, newDirList) =>
      let cleared : KVStore × Except Failure Unit :=
        match jsTruthyGet newDirList newName with
        | none => (s, .ok ())
        | some existingId =>
            match getINode s newPath existingId with
            | .error e => (s, .error e)
            | .ok newNameNode =>
                if newNameNode.isFile then
                  let s1 := s.del newNameNode.id
                  let s2 := s1.del existingId
                  (s2, .ok ())
                else (s, .error (.api ⟨.EPERM, newPath⟩))
      match cleared with
      | (s', .error e) => (s', .error e)
      | (s', .ok _) =>
          let newDirList' := alistSet newDirList newName nodeId
          let oldFinal := if newParent = oldParent then newDirList' else oldDirList'
          let (s1, _) := s'.put oldDirNode.id (.dir oldFinal) true
          let (s2, _) := s1.put newDirNode.id (.dir newDirList') true
          (s2, .ok ())

/-- renameSync, including the EBUSY guard that forbids moving a directory
into itself or a descendant: `(newParent + '/').indexOf(oldPath + '/') === 0`.
When the two parents coincide the source reuses the already-modified
listing object for both writes. -/
def renameSync (s : KVStore) (oldPath newPath : String) (cred : Cred) :
    KVStore × Except Failure Unit :=
  let oldParent := dirname oldPath
  let oldName := basename oldPath
  let newParent := dirname newPath
  let newName := basename newPath
  match findINode s oldParent with
  | .error e => (s, .error e)
  | .ok oldDirNode =>
      match getDirListing s oldParent oldDirNode with
      | .error e => (s, .error e)
      | .ok oldDirList =>
          if !(oldDirNode.toStats.hasAccess W_OK cred) then
            (s, .error (.api ⟨.EACCES, oldPath⟩))
          else
            match jsTruthyGet oldDirList oldName with
            | none => (s, .error (.api ⟨.ENOENT, oldPath⟩))
            | some nodeId =>
                let oldDirList' := alistErase oldDirList oldName
                if strStartsWith (newParent ++ "/") (oldPath ++ "/") then
                  (s, .error (.api ⟨.EBUSY, oldParent⟩))
                else
                  renameSyncRest s newPath oldDirNode oldDirList'
                    nodeId oldParent newParent newName

/-- _syncSync (SyncStore.js): re-resolve the file's inode id from the
parent listing, write the data blob, and rewrite the inode record when
`Inode.update` reports a change. -/
def syncSyncFS (s : KVStore) (p : String) (data : List Nat) (stats : Stats) :
    KVStore × Except Failure Unit :=
  match findINodeId s (dirname p) (basename p) with
  | .error e => (s, .error e)
  | .ok fileInodeId =>
      match getINode s p fileInodeId with
      | .error e => (s, .error e)
      | .ok fileInode =>
          let (fileInode', inodeChanged) := fileInode.update stats
          let (s1, _) := s.put fileInode'.id (.blob data) true
          let s2 := if inodeChanged then (s1.put fileInodeId (.node fileInode') true).1
                    else s1
          (s2, .ok ())

/-- SyncKeyValueFile.writeSync: the PreloadFile write, running the
backend syncSync when the flag is synchronous. -/
def fileWriteSync (s : KVStore) (f : PreloadFile) (buffer : List Nat)
    (offset length : Nat) (position : Option Nat) (now : Nat) :
    KVStore × PreloadFile × Except Failure Nat :=
  match f.writeSyncP buffer offset length position now with
  | (f', .error e) => (s, f', .error e)
  | (f', .ok (ret, wantsSync)) =>
      if wantsSync then
        match syncSyncFS s f'.path f'.buffer f'.stat with
        | (s', .error e) => (s', f', .error e)
        | (s', .ok _) => (s', { f' with dirty := false }, .ok ret)
      else (s, f', .ok ret)

/-- SyncKeyValueFile.closeSync = syncSync: persist when dirty. -/
def fileCloseSync (s : KVStore) (f : PreloadFile) :
    KVStore × PreloadFile × Except Failure Unit :=
  if f.dirty then
    match syncSyncFS s f.path f.buffer f.stat with
    | (s', .error e) => (s', f, .error e)
    | (s', .ok _) => (s', { f with dirty := false }, .ok ())
  else (s, f, .ok ())

/-- BaseFileSystem.openSync (filesystem.js), as dispatched for the
synchronous key-value engine (SynchronousFileSystem.open delegates to
openSync).  The truncate action deletes and recreates the file with the
old stats' mode. -/
def openSyncKV (s : KVStore) (p : String) (flag : FileFlag) (mode : Nat)
    (cred : Cred) (now : Nat) : KVStore × Except Failure PreloadFile :=
  match statSync s p cred with
  | .error _ =>
      match flag.pathNotExistsAction with
      | .CREATE_FILE =>
          match statSync s (dirname p) cred with
          | .error e => (s, .error e)
          | .ok parentStats =>
              if !parentStats.isDirectory then
                (s, .error (.api ⟨.ENOTDIR, dirname p⟩))
              else createFileSync s p flag mode cred now
      | .THROW_EXCEPTION => (s, .error (.api ⟨.ENOENT, p⟩))
      | _ => (s, .error (.api ⟨.EINVAL, "Invalid FileFlag object."⟩))
  | .ok stats =>
      if !(stats.hasAccess mode cred) then (s, .error (.api ⟨.EACCES, p⟩))
      else
        match flag.pathExistsAction with
        | .THROW_EXCEPTION => (s, .error (.api ⟨.EEXIST, p⟩))
        | .TRUNCATE_FILE =>
            match unlinkSync s p cred with
            | (s1, .error e) => (s1, .error e)
            | (s1, .ok _) => createFileSync s1 p flag stats.mode cred now
        | .NOP =>
            match openFileSync s p flag cred with
            | .error e => (s, .error e)
            | .ok fd => (s, .ok fd)
        | _ => (s, .error (.api ⟨.EINVAL, "Invalid FileFlag object."⟩))

/-- BaseFileSystem.writeFile: open, `fd.write(data, 0, data.length, 0)`,
and close in a finally block (a close failure overrides, as a JS finally
throw would). -/
def writeFileKV (s : KVStore) (fname : String) (data : List Nat)
    (flag : FileFlag) (mode : Nat) (cred : Cred) (now : Nat) :
    KVStore × Except Failure Unit :=
  match openSyncKV s fname flag mode cred now with
  | (s1, .error e) => (s1, .error e)
  | (s1, .ok fd) =>
      match fileWriteSync s1 fd data 0 data.length (some 0) now with
      | (s2, fd', .error e) =>
          match fileCloseSync s2 fd' with
          | (s3, _, .error e2) => (s3, .error e2)
          | (s3, _, .ok _) => (s3, .error e)
      | (s2, fd', .ok _) =>
          match fileCloseSync s2 fd' with
          | (s3, _, .error e2) => (s3, .error e2)
          | (s3, _, .ok _) => (s3, .ok ())

/-- BaseFileSystem.readFile: open, stat, allocate a stat.size buffer,
`fd.read(buf, 0, stat.size, 0)`, close, return the buffer — plus the
second close from the finally block. -/
def readFileKV (s : KVStore) (fname : String) (flag : FileFlag) (cred : Cred)
    (now : Nat) : KVStore × Except Failure (List Nat) :=
  match openSyncKV s fname flag 0o644 cred now with
  | (s1, .error e) => (s1, .error e)
  | (s1, .ok fd) =>
      let stat := fd.stat.clone
      let buf : List Nat := List.replicate stat.size 0
      match fd.readSync buf 0 stat.size (some 0) now with
      | (fd', .error e) =>
          match fileCloseSync s1 fd' with
          | (s2, _, .error e2) => (s2, .error e2)
          | (s2, _, .ok _) => (s2, .error e)
      | (fd', .ok (buf', _)) =>
          match fileCloseSync s1 fd' with
          | (s2, _, .error e2) => (s2, .error e2)
          | (s2, fd2, .ok _) =>
              match fileCloseSync s2 fd2 with
              | (s3, _, .error e2) => (s3, .error e2)
              | (s3, _, .ok _) => (s3, .ok buf')

/- ===================================================================
   VFS mount dispatch (emulation/shared.js, src/emulation/promises.ts).
   Mounted filesystems are identified by an index; resolveFS returns a
   freshly allocated result object each call, so object identity is
   modelled by an allocation counter: two results are `===` exactly when
   their allocation ids coincide.
   =================================================================== -/

structure ResolvedFS where
  fsIdx : Nat
  path : String
  mountPoint : String
  allocId : Nat
  deriving DecidableEq, Repr

/-- Insertion sort by descending mount-point length (the comparator
`a[0].length > b[0].length ? -1 : 1`; ties are ordered arbitrarily, and
at most one mount of a given length can match a path). -/
def insertByLenDesc (x : String × Nat) : List (String × Nat) → List (String × Nat)
  | [] => [x]
  | y :: ys => if strLen x.1 ≥ strLen y.1 then x :: y :: ys else y :: insertByLenDesc x ys

def sortByLenDesc : List (String × Nat) → List (String × Nat)
  | [] => []
  | x :: xs => insertByLenDesc x (sortByLenDesc xs)

def resolveFSLoop (path : String) (alloc : Nat) :
    List (String × Nat) → Except Failure (ResolvedFS × Nat)
  | [] => .error (.api ⟨ErrorCode.EIO, "BrowserFS not initialized with a file system"⟩)
  | (mountPoint, fs) :: rest =>
      if strLen mountPoint ≤ strLen path && strStartsWith path mountPoint then
        let p1 := strDropLen path (if strLen mountPoint > 1 then strLen mountPoint else 0)
        let p2 := if p1 = "" then "/" else p1
        .ok (⟨fs, p2, mountPoint, alloc⟩, alloc + 1)
      else resolveFSLoop path alloc rest

/-- resolveFS: longest-prefix mount resolution, threading the allocation
counter for the returned object. -/
def resolveFS (mounts : List (String × Nat)) (path : String) (alloc : Nat) :
    Except Failure (ResolvedFS × Nat) :=
  resolveFSLoop path alloc (sortByLenDesc mounts)

inductive RenameRoute : Type
  | backend (fsIdx : Nat) (oldP newP : String)
  | emulate
  deriving DecidableEq, Repr

/-- promises.ts rename: resolve both (already normalized) paths, then
`if (_old === _new)` — JS reference equality of the two result objects —
call the backend rename, else emulate with readFile + writeFile + unlink. -/
def vfsRenameRoute (mounts : List (String × Nat)) (oldPath newPath : String) :
    Except Failure RenameRoute :=
  match resolveFS mounts oldPath 0 with
  | .error e => .error e
  | .ok (rOld, alloc1) =>
      match resolveFS mounts newPath alloc1 with
      | .error e => .error e
      | .ok (rNew, _) =>
          if rOld.allocId = rNew.allocId then
            .ok (.backend rOld.fsIdx rOld.path rNew.path)
          else .ok .emulate

/-- The mount-point augmentation loop of promises.ts readdir: for every
mount point starting with the (normalized) path, append
`point.slice(path.length)` unless that slice contains '/' or is empty. -/
def readdirMounts (points : List String) (path : String)
    (entries : List String) : List String :=
  points.foldl
    (fun acc point =>
      if strStartsWith point path then
        let entry := strDropLen point (strLen path)
        if strContainsChar entry '/' || strLen entry = 0 then acc
        else acc ++ [entry]
      else acc)
    entries

/-- The checks renameSync performs before its subtree guard: the source
parent resolves to a directory listing, the caller may write it, and the
source name is present.  (EACCES and ENOENT take precedence over EBUSY.) -/
def renamePreconds (s : KVStore) (oldPath : String) (cred : Cred) : Bool :=
  match findINode s (dirname oldPath) with
  | .error _ => false
  | .ok n =>
      match getDirListing s (dirname oldPath) n with
      | .error _ => false
      | .ok l =>
          n.toStats.hasAccess W_OK cred && (jsTruthyGet l (basename oldPath)).isSome

/-- Agreement of two stores from the point of view of a successful path
resolution: every key either has the same value in both, or is a key a
successful `_findINode` run over `s` can never have read — absent, a raw
blob, or a non-directory inode (resolution reads a key either as an inode
that must then list as a directory, or as a directory-listing blob) — or
is a directory listing extended at a name whose entry was falsy in `s`
(which a successful lookup can therefore never have consulted). -/
def ResolveAgree (s t : KVStore) : Prop :=
  ∀ k, t.get k = s.get k ∨
    s.get k = none ∨
    (∃ b, s.get k = some (.blob b)) ∨
    (∃ i, s.get k = some (.node i) ∧ i.isDirectory = false) ∨
    (∃ l name v, s.get k = some (.dir l) ∧
      t.get k = some (.dir (alistSet l name v)) ∧ jsTruthyGet l name = none)

/- ===================================================================
   Theorems.
   =================================================================== -/

section Lemmas

/-- Bypass line of hasAccess: effective uid 0 or effective gid 0 grants
everything. -/
theorem hasAccess_of_effective_root (st : Stats) (mode : Nat) (cred : Cred)
    (h : cred.euid = 0 ∨ cred.egid = 0) : st.hasAccess mode cred = true := by
  unfold Stats.hasAccess
  rcases h with h | h <;> simp [h]

theorem hasAccess_Root (st : Stats) (mode : Nat) :
    st.hasAccess mode Cred.Root = true :=
  hasAccess_of_effective_root st mode Cred.Root (Or.inl rfl)

/-- getINode never raises EACCES. -/
theorem getINode_no_EACCES (s : KVStore) (p id : String) (e : Failure)
    (h : getINode s p id = .error e) : e.isEACCES = false := by
  unfold getINode at h
  rcases hg : s.get id with _ | v
  · simp [hg] at h; simp [← h, Failure.isEACCES]
  · rcases v with d | l | i <;> simp [hg] at h <;> simp [← h, Failure.isEACCES]

/-- getDirListing never raises EACCES. -/
theorem getDirListing_no_EACCES (s : KVStore) (p : String) (i : Inode) (e : Failure)
    (h : getDirListing s p i = .error e) : e.isEACCES = false := by
  unfold getDirListing at h
  by_cases hd : i.isDirectory
  · simp [hd] at h
    rcases hg : s.get i.id with _ | v
    · simp [hg] at h; simp [← h, Failure.isEACCES]
    · rcases v with d | l | j <;> simp [hg] at h <;> simp [← h, Failure.isEACCES]
  · simp [Bool.not_eq_true] at hd
    simp [hd] at h
    simp [← h, Failure.isEACCES]

theorem readDirectoryStep_no_EACCES (s : KVStore) (parent filename : String)
    (i : Inode) (e : Failure) (h : readDirectoryStep s parent filename i = .error e) :
    e.isEACCES = false := by
  unfold readDirectoryStep at h
  rcases hl : getDirListing s parent i with e' | l
  · simp [hl] at h; exact h ▸ getDirListing_no_EACCES s parent i e' hl
  · simp [hl] at h
    rcases ht : jsTruthyGet l filename with _ | v <;> simp [ht] at h
    simp [← h, Failure.isEACCES]

theorem findINodeIdAux_no_EACCES (s : KVStore) (fuel : Nat) :
    ∀ parent filename e, findINodeIdAux s fuel parent filename = .error e →
      e.isEACCES = false := by
  induction fuel with
  | zero =>
      intro parent filename e h
      unfold findINodeIdAux at h
      simp at h
      simp [← h, Failure.isEACCES]
  | succ n ih =>
      intro parent filename e h
      unfold findINodeIdAux at h
      by_cases hp : parent = "/"
      · simp [hp] at h
        by_cases hf : filename = ""
        · simp [hf] at h
        · simp [hf] at h
          rcases hg : getINode s "/" ROOT_NODE_ID with e' | i
          · simp [hg] at h; exact h ▸ getINode_no_EACCES s "/" ROOT_NODE_ID e' hg
          · simp [hg] at h
            exact readDirectoryStep_no_EACCES s "/" filename i e h
      · simp [hp] at h
        rcases hr : findINodeIdAux s n (dirname parent) (basename parent) with e' | pid
        · simp [hr] at h; exact h ▸ ih (dirname parent) (basename parent) e' hr
        · simp [hr] at h
          rcases hg : getINode s (parent ++ "/" ++ filename) pid with e' | i
          · simp [hg] at h
            exact h ▸ getINode_no_EACCES s (parent ++ "/" ++ filename) pid e' hg
          · simp [hg] at h
            exact readDirectoryStep_no_EACCES s parent filename i e h

theorem findINode_no_EACCES (s : KVStore) (p : String) (e : Failure)
    (h : findINode s p = .error e) : e.isEACCES = false := by
  unfold findINode at h
  rcases hr : findINodeId s (dirname p) (basename p) with e' | id
  · simp [hr] at h
    exact h ▸ findINodeIdAux_no_EACCES s (strLen (dirname p) + 1) (dirname p)
      (basename p) e' hr
  · simp [hr] at h
    exact getINode_no_EACCES s p id e h

end Lemmas

section ClaimC10

/-- C10: `hasAccess(mode, c)` returns true whenever `c.euid == 0` or
`c.egid == 0`, and consequently the key-value engine's permission checks
(here the cited `accessSync`) can never raise EACCES for such a
credential — the root bypass extends to any credential whose effective
gid is 0, regardless of the file's mode and owner. -/
theorem c10_effective_root_bypasses_all_checks (st : Stats) (mode : Nat)
    (cred : Cred) (s : KVStore) (p : String)
    (h : cred.euid = 0 ∨ cred.egid = 0) :
    st.hasAccess mode cred = true ∧
      (∀ e, accessSync s p mode cred = .error e → e.isEACCES = false) := by
  refine ⟨hasAccess_of_effective_root st mode cred h, ?_⟩
  intro e he
  unfold accessSync at he
  rcases hf : findINode s p with e' | node
  · simp [hf] at he
    exact he ▸ findINode_no_EACCES s p e' hf
  · simp [hf, hasAccess_of_effective_root node.toStats mode cred h] at he

/-- C10 witness: a credential with euid 5 but egid 0 passes `hasAccess`
for full 0b111 access on a file owned by uid 9 / gid 9 with mode 0, and
`accessSync` on an empty store fails with ENOENT, not EACCES. -/
theorem c10_witness :
    (mkStats S_IFREG 0 1 0 0 0 9 9).hasAccess 7 ⟨5, 5, 5, 5, 5, 0⟩ = true ∧
      (∀ e, accessSync ⟨[]⟩ "/q" 7 ⟨5, 5, 5, 5, 5, 0⟩ = .error e →
        e.isEACCES = false) :=
  c10_effective_root_bypasses_all_checks (mkStats S_IFREG 0 1 0 0 0 9 9) 7
    ⟨5, 5, 5, 5, 5, 0⟩ ⟨[]⟩ "/q" (Or.inr rfl)

end ClaimC10

section ClaimC3

/-- C3: on an initialized overlay, `exists(p)` is true exactly when p
exists on the writable (upper) layer, or exists on the readable (lower)
layer and the deletion map does not mark p as deleted (an entry parsed
as `false` does not count as a deletion mark). -/
theorem c3_overlay_exists_union (st : OverlayState)
    (upperExists lowerExists : String → Cred → Bool) (p : String) (cred : Cred)
    (h1 : st.isInitialized = true) (h2 : st.deleteLogError = none) :
    overlayExistsSync st upperExists lowerExists p cred =
      (st, .ok (specOverlayExists (upperExists p cred) (lowerExists p cred)
        (decide (alistLookup st.deletedFiles p = some true)))) := by
  unfold overlayExistsSync OverlayState.checkInitialized specOverlayExists
  simp [h1, h2]

/-- C3 witness: an initialized overlay where `/u` is only on the upper
layer, `/l` only on the lower layer, `/dead` on the lower layer but
marked deleted, and `/kept` on the lower layer with a `false` log entry. -/
theorem c3_witness :
    overlayExistsSync ⟨true, none, [("/dead", true), ("/kept", false)]⟩
        (fun p _ => p = "/u") (fun p _ => p = "/l" || p = "/dead" || p = "/kept")
        "/dead" Cred.Root =
      (⟨true, none, [("/dead", true), ("/kept", false)]⟩, .ok false) := by
  rw [c3_overlay_exists_union _ _ _ _ _ rfl rfl]
  simp [specOverlayExists, alistLookup]

end ClaimC3

section ClaimC4

/-- C4: the claim says `lock(p)` on a path with no entry resolves
immediately.  In the source the no-entry branch of the promise executor
inserts an empty queue and returns without ever invoking `resolve`, and
stores the resolver nowhere, so the future neither resolves now
(`resolvedNow = false`) nor can ever be resolved later (`queued = none`):
the first lock on any path blocks forever. -/
theorem c4_lock_never_resolves :
    Mutex.lock ⟨[]⟩ "/x" 0 = ⟨⟨[("/x", [])]⟩, false, none⟩ ∧
      (∀ mu : Mutex, ∀ path rid, alistLookup mu.locks path = none →
        (mu.lock path rid).resolvedNow = false ∧ (mu.lock path rid).queued = none) := by
  refine ⟨rfl, ?_⟩
  intro mu path rid h
  unfold Mutex.lock
  simp [h]

end ClaimC4

section ClaimC5

/-- C5 counterexample: with the lock on "/x" held (entry present) and the
delegated rename failing with EIO, LockedFS.rename propagates the error
while the mutex entry is still present — `isLocked` remains true, so a
later operation on "/x" cannot acquire the lock, contrary to the claim
that the mutex is released before the error propagates. -/
theorem c5_counterexample :
    (LockedFS.renameBody ⟨[("/x", [])]⟩ "/x" (.error (.api ⟨ErrorCode.EIO, "/x"⟩))).2 =
        .error (.api ⟨ErrorCode.EIO, "/x"⟩) ∧
      ¬ (LockedFS.renameBody ⟨[("/x", [])]⟩ "/x"
          (.error (.api ⟨ErrorCode.EIO, "/x"⟩))).1.isLocked "/x" = false :=
  ⟨rfl, by decide⟩

/-- C5 amended: LockedFS async operations unlock only after a successful
delegate call; when the delegated call throws, the error propagates with
the mutex state unchanged, so the path stays locked. -/
theorem c5_error_leaves_lock_held (mu : Mutex) (p : String) (e : Failure)
    (h : mu.isLocked p = true) :
    LockedFS.renameBody mu p (.error e) = (mu, .error e) ∧
      (LockedFS.renameBody mu p (.error e)).1.isLocked p = true := by
  exact ⟨rfl, h⟩

/-- C5 witness for the amended claim. -/
theorem c5_witness :
    LockedFS.renameBody ⟨[("/x", [])]⟩ "/x" (.error (.jsError "boom")) =
        (⟨[("/x", [])]⟩, .error (.jsError "boom")) ∧
      (LockedFS.renameBody ⟨[("/x", [])]⟩ "/x"
        (.error (.jsError "boom"))).1.isLocked "/x" = true :=
  c5_error_leaves_lock_held ⟨[("/x", [])]⟩ "/x" (.jsError "boom") (by decide)

end ClaimC5

section ClaimC6

/-- C6: the claim says readdir('/a') lists the mount point '/a/b' as 'b'.
With mounts at '/', '/a' and '/a/b', the augmentation loop computes
`'/a/b'.slice('/a'.length) = '/b'`, which contains '/' and is skipped, so
nothing is added for '/a'; the slice only lacks the leading separator
when the path is the root, where the same mounts do yield 'a'. -/
theorem c6_child_mount_missing_from_readdir :
    readdirMounts ["/", "/a", "/a/b"] "/a" [] = [] ∧
      readdirMounts ["/", "/a", "/a/b"] "/" [] = ["a"] := by
  decide

end ClaimC6

section ClaimC9

theorem leBytes_length (n v : Nat) : (leBytes n v).length = n := by
  induction n generalizing v with
  | zero => rfl
  | succ m ih => simp [leBytes, ih]

theorem spliceBytes_length (buf src : List Nat) (off : Nat)
    (h : off + src.length ≤ buf.length) :
    (spliceBytes buf off src).length = buf.length := by
  unfold spliceBytes
  simp [List.length_take, List.length_drop]
  omega

theorem dvSetUint32_ok (buf : List Nat) (off v : Nat) (h : off + 4 ≤ buf.length) :
    ∃ b, dvSetUint32 buf off v = .ok b ∧ b.length = buf.length := by
  refine ⟨spliceBytes buf off (leBytes 4 (v % 2 ^ 32)), ?_, ?_⟩
  · simp [dvSetUint32, h]
  · exact spliceBytes_length buf _ off (by simp [leBytes_length]; omega)

theorem dvSetFloat64_ok (buf : List Nat) (off v : Nat) (h : off + 8 ≤ buf.length) :
    ∃ b, dvSetFloat64 buf off v = .ok b ∧ b.length = buf.length := by
  refine ⟨spliceBytes buf off (leBytes 8 (float64bits v)), ?_, ?_⟩
  · simp [dvSetFloat64, h]
  · exact spliceBytes_length buf _ off (by simp [leBytes_length]; omega)

/-- C9: the claim says serialize() yields a 32-byte payload with u32 uid
at offset 32 and u32 gid at offset 36.  Those offsets lie outside the
32-byte buffer the source allocates, so every call to Stats.serialize
raises a DataView RangeError and no payload (and hence no round-trip)
exists. -/
theorem c9_serialize_always_raises (s : Stats) :
    Stats.serialize s =
      .error (.jsError "RangeError: Offset is outside the bounds of the DataView") := by
  obtain ⟨b1, h1, l1⟩ := dvSetUint32_ok (List.replicate 32 0) 0 s.size (by simp)
  simp only [List.length_replicate] at l1
  obtain ⟨b2, h2, l2⟩ := dvSetUint32_ok b1 4 s.mode (by omega)
  obtain ⟨b3, h3, l3⟩ := dvSetFloat64_ok b2 8 s.atimeMs (by omega)
  obtain ⟨b4, h4, l4⟩ := dvSetFloat64_ok b3 16 s.mtimeMs (by omega)
  obtain ⟨b5, h5, l5⟩ := dvSetFloat64_ok b4 24 s.ctimeMs (by omega)
  have h6 : dvSetUint32 b5 32 s.uid =
      .error (.jsError "RangeError: Offset is outside the bounds of the DataView") := by
    have : ¬ (32 + 4 ≤ b5.length) := by omega
    simp [dvSetUint32, this]
  unfold Stats.serialize
  simp only [Bind.bind, Except.bind, Except.instMonad, h1, h2, h3, h4, h5, h6]

end ClaimC9

section ClaimC2

theorem resolveFSLoop_alloc (path : String) (alloc : Nat)
    (l : List (String × Nat)) (r : ResolvedFS) (a' : Nat)
    (h : resolveFSLoop path alloc l = .ok (r, a')) :
    r.allocId = alloc ∧ a' = alloc + 1 := by
  induction l with
  | nil => simp [resolveFSLoop] at h
  | cons x xs ih =>
      unfold resolveFSLoop at h
      by_cases hc : strLen x.1 ≤ strLen path && strStartsWith path x.1
      · simp [hc] at h
        exact ⟨by simp [← h.1], h.2.symm⟩
      · simp [hc] at h
        exact ih h

/-- C2: the claim says a same-mount rename invokes the backend's rename.
The source compares the two resolveFS results with `===`; each call
returns a freshly allocated object, so the comparison is always false and
every successful VFS rename — same mount or not — takes the
readFile/writeFile/unlink emulation.  The backend branch is dead code. -/
theorem c2_rename_always_emulates (mounts : List (String × Nat))
    (oldPath newPath : String)
    (h : exceptIsOk (vfsRenameRoute mounts oldPath newPath) = true) :
    vfsRenameRoute mounts oldPath newPath = .ok .emulate := by
  unfold vfsRenameRoute at h ⊢
  rcases h1 : resolveFS mounts oldPath 0 with e | ⟨rOld, alloc1⟩
  · simp [h1, exceptIsOk] at h
  · rcases h2 : resolveFS mounts newPath alloc1 with e | ⟨rNew, alloc2⟩
    · simp [h1, h2, exceptIsOk] at h
    · have ha : rOld.allocId = 0 ∧ alloc1 = 0 + 1 :=
        resolveFSLoop_alloc oldPath 0 _ rOld alloc1 h1
      have hb : rNew.allocId = alloc1 ∧ alloc2 = alloc1 + 1 :=
        resolveFSLoop_alloc newPath alloc1 _ rNew alloc2 h2
      have hne : rOld.allocId ≠ rNew.allocId := by omega
      simp [h1, h2, hne]

/-- C2 witness: with a single filesystem mounted at '/', renaming '/a' to
'/b' — both on that one mount — still routes to the emulation. -/
theorem c2_witness :
    vfsRenameRoute [("/", 0)] "/a" "/b" = .ok .emulate :=
  c2_rename_always_emulates [("/", 0)] "/a" "/b" (by decide)

end ClaimC2

section ClaimC7

/-- C7: whenever the earlier rename checks pass (source parent resolves,
is writable by the caller, and contains the source name) and
`(newParent + '/')` starts with `(oldPath + '/')`, renameSync fails with
EBUSY (carrying the old parent as its path) and leaves the store
untouched — a directory can never be moved into itself or a descendant. -/
theorem c7_rename_subtree_ebusy (s : KVStore) (oldPath newPath : String)
    (cred : Cred) (hpre : renamePreconds s oldPath cred = true)
    (hsub : strStartsWith (dirname newPath ++ "/") (oldPath ++ "/") = true) :
    renameSync s oldPath newPath cred =
      (s, .error (.api ⟨.EBUSY, dirname oldPath⟩)) := by
  unfold renamePreconds at hpre
  unfold renameSync
  rcases h1 : findINode s (dirname oldPath) with e | oldDirNode
  · simp [h1] at hpre
  · rcases h2 : getDirListing s (dirname oldPath) oldDirNode with e | oldDirList
    · simp [h1, h2] at hpre
    · simp [h1, h2] at hpre
      rcases h3 : jsTruthyGet oldDirList (basename oldPath) with _ | nodeId
      · simp [h3] at hpre
      · simp [h1, h2, h3, hpre.1, hsub]

/-- C7 witness: scenario S2 — on a fresh in-memory filesystem, after
mkdir('/d') and mkdir('/d/e'), rename('/d', '/d/e/x') fails with EBUSY. -/
theorem c7_witness :
    renameSync
        (mkdirSync (mkdirSync (makeRootDirectory ⟨[]⟩ 100) "/d" 0o755
          Cred.Root 101).1 "/d/e" 0o755 Cred.Root 102).1
        "/d" "/d/e/x" Cred.Root =
      ((mkdirSync (mkdirSync (makeRootDirectory ⟨[]⟩ 100) "/d" 0o755
          Cred.Root 101).1 "/d/e" 0o755 Cred.Root 102).1,
        .error (.api ⟨.EBUSY, "/"⟩)) := by
  have h := c7_rename_subtree_ebusy
    (mkdirSync (mkdirSync (makeRootDirectory ⟨[]⟩ 100) "/d" 0o755
      Cred.Root 101).1 "/d/e" 0o755 Cred.Root 102).1
    "/d" "/d/e/x" Cred.Root (by decide) (by decide)
  simpa using h

end ClaimC7

section ClaimC8

/-- C8 counterexample: a PreloadFile opened 'r+' (writable, not
synchronous) over 4 bytes; `write([9], 0, 1, 0)` writes one byte at
position 0 and returns 1, but the internal position afterwards is
`0 + buffer.length = 4`, not `pos + len = 1` as the claim states. -/
theorem c8_counterexample :
    ¬ (((⟨"/x", ⟨"r+"⟩, ⟨4, 33188, 0, 0, 0, 0, 0⟩, [0, 0, 0, 0], 0, false⟩ :
        PreloadFile).writeSyncP [9] 0 1 (some 0) 50).1.pos = 0 + 1) ∧
      ((⟨"/x", ⟨"r+"⟩, ⟨4, 33188, 0, 0, 0, 0, 0⟩, [0, 0, 0, 0], 0, false⟩ :
        PreloadFile).writeSyncP [9] 0 1 (some 0) 50).1.pos = 4 := by
  decide

theorem extract_mid (pre src rest : List Nat) (p n : Nat) (hp : pre.length = p)
    (hn : src.length = n) : ((pre ++ src ++ rest).drop p).take n = src := by
  subst hp
  subst hn
  rw [List.append_assoc, List.drop_left, List.take_left]

/-- C8 amended: for a writable, non-synchronous PreloadFile whose buffer
covers its Stats size, `write(buf, off, len, pos)` succeeds, writes the
`len` bytes `buf[off..off+len)` at `pos`, grows the size to
`max size (pos+len)`, stamps mtime, and returns `len` — but advances the
internal position to `pos + B` where `B` is the total buffer length after
the write (not to `pos + len`). -/
theorem c8_write_advances_by_buffer_length (f : PreloadFile) (buf : List Nat)
    (off len pos now : Nat)
    (hw : f.flag.isWriteable = true) (hs : f.flag.isSynchronous = false)
    (hb : off + len ≤ buf.length) (hsz : f.stat.size ≤ f.buffer.length) :
    ∃ f', f.writeSyncP buf off len (some pos) now = (f', .ok (len, false)) ∧
      f'.stat.mtimeMs = now ∧
      f'.stat.size = max f.stat.size (pos + len) ∧
      f'.buffer.length = max f.buffer.length (pos + len) ∧
      (f'.buffer.drop pos).take len = (buf.drop off).take len ∧
      f'.pos = pos + f'.buffer.length := by
  have hsrcLen : (jsSlice buf off (off + len)).length = len := by
    unfold jsSlice
    simp [List.length_take, List.length_drop]
    omega
  have hsliceEq : jsSlice buf off (off + len) = (buf.drop off).take len := by
    unfold jsSlice
    rw [List.drop_take]
    simp
  classical
  set T : List Nat :=
    if f.stat.size < pos + len ∧ f.buffer.length < pos + len then
      f.buffer ++ List.replicate (pos + len - f.buffer.length) 0
    else f.buffer with hT
  have hTlen : T.length = max f.buffer.length (pos + len) := by
    rw [hT]
    by_cases h12 : f.stat.size < pos + len ∧ f.buffer.length < pos + len
    · simp only [h12, if_true]
      simp
      omega
    · simp only [h12, if_false]
      rcases Nat.lt_or_ge f.stat.size (pos + len) with hlt | hge
      · have h2 : ¬ f.buffer.length < pos + len := fun hc => h12 ⟨hlt, hc⟩
        omega
      · omega
  set B : List Nat := T.take pos ++ jsSlice buf off (off + len) ++ T.drop (pos + len)
    with hB
  have hBlen : B.length = T.length := by
    rw [hB]
    simp [List.length_take, List.length_drop, hsrcLen]
    omega
  have hset : jsSet T (jsSlice buf off (off + len)) pos = .ok B := by
    unfold jsSet
    rw [hsrcLen]
    have hle : pos + len ≤ T.length := by omega
    rw [if_pos hle, ← hB]
  have hmain : f.writeSyncP buf off len (some pos) now =
      (⟨f.path, f.flag,
        ⟨(if f.stat.size < pos + len then pos + len else f.stat.size), f.stat.mode,
          f.stat.atimeMs, now, f.stat.ctimeMs, f.stat.uid, f.stat.gid⟩,
        B, pos + B.length, true⟩, .ok (len, false)) := by
    unfold PreloadFile.writeSyncP
    by_cases h1 : f.stat.size < pos + len
    · by_cases h2 : f.buffer.length < pos + len
      · have hT' : T = f.buffer ++ List.replicate (pos + len - f.buffer.length) 0 := by
          rw [hT, if_pos ⟨h1, h2⟩]
        rw [hT'] at hset
        simp [hw, hs, h1, h2, hset, hsrcLen]
      · have hT' : T = f.buffer := by
          rw [hT, if_neg (fun h => h2 h.2)]
        rw [hT'] at hset
        simp [hw, hs, h1, h2, hset, hsrcLen]
    · have hT' : T = f.buffer := by
        rw [hT, if_neg (fun h => h1 h.1)]
      rw [hT'] at hset
      simp [hw, hs, h1, hset, hsrcLen]
  refine ⟨_, hmain, rfl, ?_, ?_, ?_, rfl⟩
  · by_cases h1 : f.stat.size < pos + len <;> simp [h1] <;> omega
  · rw [hBlen, hTlen]
  · rw [hB]
    rw [extract_mid (T.take pos) (jsSlice buf off (off + len)) (T.drop (pos + len))
      pos len (by simp [List.length_take]; omega) hsrcLen]
    exact hsliceEq

/-- C8 witness for the amended claim: writing 2 bytes at position 1 of a
4-byte 'r+' file returns 2, stamps mtime 77, keeps size 4, and leaves the
position at `1 + 4 = 5`. -/
theorem c8_witness :
    ∃ f', (⟨"/x", ⟨"r+"⟩, ⟨4, 33188, 0, 0, 0, 0, 0⟩, [0, 0, 0, 0], 0, false⟩ :
        PreloadFile).writeSyncP [8, 9] 0 2 (some 1) 77 = (f', .ok (2, false)) ∧
      f'.stat.mtimeMs = 77 ∧
      f'.stat.size = max 4 (1 + 2) ∧
      f'.buffer.length = max 4 (1 + 2) ∧
      (f'.buffer.drop 1).take 2 = (([8, 9] : List Nat).drop 0).take 2 ∧
      f'.pos = 1 + f'.buffer.length :=
  c8_write_advances_by_buffer_length
    ⟨"/x", ⟨"r+"⟩, ⟨4, 33188, 0, 0, 0, 0, 0⟩, [0, 0, 0, 0], 0, false⟩
    [8, 9] 0 2 1 77 (by decide) (by decide) (by decide) (by decide)

end ClaimC8

section C1Infra

theorem alistLookup_alistSet_self {α : Type} (l : List (String × α)) (k : String)
    (v : α) : alistLookup (alistSet l k v) k = some v := by
  induction l with
  | nil => simp [alistSet, alistLookup]
  | cons kv rest ih =>
      rcases kv with ⟨a, b⟩
      by_cases h : a = k
      · subst h
        simp [alistSet, alistLookup]
      · simp [alistSet, alistLookup, h, ih]

theorem alistLookup_alistSet_ne {α : Type} (l : List (String × α)) (k k' : String)
    (v : α) (h : k' ≠ k) :
    alistLookup (alistSet l k v) k' = alistLookup l k' := by
  have hne : ¬ k = k' := fun he => h he.symm
  induction l with
  | nil => simp [alistSet, alistLookup, hne]
  | cons kv rest ih =>
      rcases kv with ⟨a, b⟩
      by_cases hk : a = k
      · subst hk
        simp [alistSet, alistLookup, hne]
      · by_cases hk' : a = k'
        · simp [alistSet, alistLookup, hk, hk', h]
        · simp [alistSet, alistLookup, hk, hk', ih]

theorem KVStore.get_set_self (s : KVStore) (k : String) (v : StoreValue) :
    (s.set k v).get k = some v := alistLookup_alistSet_self s.entries k v

theorem KVStore.get_set_ne (s : KVStore) (k k' : String) (v : StoreValue)
    (h : k' ≠ k) : (s.set k v).get k' = s.get k' :=
  alistLookup_alistSet_ne s.entries k k' v h

theorem jsTruthyGet_alistSet_self (l : List (String × String)) (name v : String)
    (hv : v ≠ "") : jsTruthyGet (alistSet l name v) name = some v := by
  unfold jsTruthyGet
  rw [alistLookup_alistSet_self]
  simp [hv]

theorem jsTruthyGet_alistSet_ne (l : List (String × String)) (name name' v : String)
    (h : name' ≠ name) :
    jsTruthyGet (alistSet l name v) name' = jsTruthyGet l name' := by
  unfold jsTruthyGet
  rw [alistLookup_alistSet_ne l name name' v h]

theorem alistLookup_length_lt {α : Type} (l : List (String × α)) (k : String)
    (v : α) (h : alistLookup l k = some v) :
    strLen k ≤ (l.map fun kv => strLen kv.1).sum := by
  induction l with
  | nil => simp [alistLookup] at h
  | cons kv rest ih =>
      unfold alistLookup at h
      by_cases hk : kv.1 = k
      · subst hk
        simp only [List.map_cons, List.sum_cons]
        omega
      · simp only [hk, if_false] at h
        have := ih h
        simp only [List.map_cons, List.sum_cons]
        omega

theorem strLen_freshKey (s : KVStore) :
    strLen (freshKey s) = 1 + (s.entries.map fun kv => strLen kv.1).sum := by
  unfold freshKey strLen
  simp

theorem freshKey_get (s : KVStore) : s.get (freshKey s) = none := by
  rcases h : s.get (freshKey s) with _ | v
  · rfl
  · exfalso
    have hlen := alistLookup_length_lt s.entries (freshKey s) v h
    have := strLen_freshKey s
    omega

theorem freshKey_ne_empty (s : KVStore) : freshKey s ≠ "" := by
  intro h
  have h1 := strLen_freshKey s
  rw [h] at h1
  have h0 : strLen "" = 0 := rfl
  omega

theorem getINode_ok {s : KVStore} {p id : String} {i : Inode}
    (h : getINode s p id = .ok i) : s.get id = some (.node i) := by
  unfold getINode at h
  rcases hg : s.get id with _ | v
  · simp [hg] at h
  · rcases v with d | l | j <;> simp [hg] at h
    rw [h]

theorem getDirListing_ok {s : KVStore} {p : String} {i : Inode}
    {l : List (String × String)} (h : getDirListing s p i = .ok l) :
    i.isDirectory = true ∧ s.get i.id = some (.dir l) := by
  unfold getDirListing at h
  by_cases hd : i.isDirectory
  · simp [hd] at h
    rcases hg : s.get i.id with _ | v
    · simp [hg] at h
    · rcases v with d | l' | j <;> simp [hg] at h
      exact ⟨hd, by rw [h]⟩
  · simp [Bool.not_eq_true] at hd
    simp [hd] at h

theorem findINode_ok {s : KVStore} {p : String} {i : Inode}
    (h : findINode s p = .ok i) :
    ∃ nid, findINodeId s (dirname p) (basename p) = .ok nid ∧
      s.get nid = some (.node i) := by
  unfold findINode at h
  rcases hr : findINodeId s (dirname p) (basename p) with e | nid
  · simp [hr] at h
  · simp [hr] at h
    exact ⟨nid, rfl, getINode_ok h⟩

theorem readDirectoryStep_ok {s : KVStore} {parent filename : String} {i : Inode}
    {r : String} (h : readDirectoryStep s parent filename i = .ok r) :
    ∃ l, getDirListing s parent i = .ok l ∧ jsTruthyGet l filename = some r := by
  unfold readDirectoryStep at h
  rcases hl : getDirListing s parent i with e | l
  · simp [hl] at h
  · simp [hl] at h
    rcases ht : jsTruthyGet l filename with _ | v
    · simp [ht] at h
    · simp [ht] at h
      exact ⟨l, rfl, by rw [← h]; exact ht⟩

/-- Characterization of Inode.update: the result is the inode with every
field except gid synced from the Stats (the second uid check always reads
the already-synced value, so gid is never written), and the change flag
is the disjunction of the six effective comparisons. -/
theorem Inode.update_eq (i : Inode) (st : Stats) :
    i.update st =
      (⟨i.id, st.size, st.mode, st.atimeMs, st.mtimeMs, st.ctimeMs, st.uid, i.gid⟩,
        decide (i.size ≠ st.size) || decide (i.mode ≠ st.mode) ||
        decide (i.atime ≠ st.atimeMs) || decide (i.mtime ≠ st.mtimeMs) ||
        decide (i.ctime ≠ st.ctimeMs) || decide (i.uid ≠ st.uid)) := by
  rcases i with ⟨id, sz, md, a, m, c, u, g⟩
  unfold Inode.update
  by_cases c1 : sz ≠ st.size <;> by_cases c2 : md ≠ st.mode <;>
    by_cases c3 : a ≠ st.atimeMs <;> by_cases c4 : m ≠ st.mtimeMs <;>
    by_cases c5 : c ≠ st.ctimeMs <;> by_cases c6 : u ≠ st.uid <;>
    simp_all


/-- A successful getINode-then-readDirectory step over `s` replays
identically over any store that ResolveAgree-s with `s`. -/
theorem step_congr {s t : KVStore} (hag : ResolveAgree s t) {p id : String}
    {i : Inode} {parent filename r : String}
    (hgi : getINode s p id = .ok i)
    (hrd : readDirectoryStep s parent filename i = .ok r) :
    getINode t p id = .ok i ∧ readDirectoryStep t parent filename i = .ok r := by
  have hsv := getINode_ok hgi
  obtain ⟨l, hdl, htr⟩ := readDirectoryStep_ok hrd
  obtain ⟨hdir, hlid⟩ := getDirListing_ok hdl
  have htid : t.get id = some (.node i) := by
    rcases hag id with h | h | ⟨b, h⟩ | ⟨j, h, hj⟩ | ⟨l', n', v', h, _, _⟩
    · rw [h, hsv]
    · rw [hsv] at h; cases h
    · rw [hsv] at h; cases h
    · rw [hsv] at h
      injection h with h
      injection h with h
      rw [← h] at hj
      rw [hj] at hdir
      cases hdir
    · rw [hsv] at h; cases h
  have hgt : getINode t p id = .ok i := by
    unfold getINode
    rw [htid]
  refine ⟨hgt, ?_⟩
  unfold readDirectoryStep
  rcases hag i.id with h | h | ⟨b, h⟩ | ⟨j, h, hj⟩ | ⟨l', n', v', h, ht', hfalsy⟩
  · have : getDirListing t parent i = .ok l := by
      unfold getDirListing
      rw [hdir]
      simp
      rw [h, hlid]
    simp [this, htr]
  · rw [hlid] at h; cases h
  · rw [hlid] at h; cases h
  · rw [hlid] at h; cases h
  · rw [hlid] at h
    injection h with h
    injection h with h
    subst h
    have hne : filename ≠ n' := by
      intro he
      rw [he] at htr
      rw [hfalsy] at htr
      cases htr
    have : getDirListing t parent i = .ok (alistSet l n' v') := by
      unfold getDirListing
      rw [hdir]
      simp
      rw [ht']
    simp [this, jsTruthyGet_alistSet_ne l n' filename v' hne, htr]

/-- A successful _findINode resolution replays identically over any
ResolveAgree-related store. -/
theorem findINodeIdAux_congr {s t : KVStore} (hag : ResolveAgree s t) :
    ∀ fuel parent filename r, findINodeIdAux s fuel parent filename = .ok r →
      findINodeIdAux t fuel parent filename = .ok r := by
  intro fuel
  induction fuel with
  | zero =>
      intro parent filename r h
      unfold findINodeIdAux at h
      simp at h
  | succ n ih =>
      intro parent filename r h
      unfold findINodeIdAux at h ⊢
      by_cases hp : parent = "/"
      · simp only [hp, if_true] at h ⊢
        by_cases hf : filename = ""
        · simp only [hf, if_true] at h ⊢
          exact h
        · simp only [hf, if_false] at h ⊢
          rcases hgi : getINode s "/" ROOT_NODE_ID with e | i
          · simp [hgi] at h
          · simp only [hgi] at h
            obtain ⟨hgt, hrt⟩ := step_congr hag hgi h
            simp [hgt, hrt]
      · simp only [hp, if_false] at h ⊢
        rcases hr : findINodeIdAux s n (dirname parent) (basename parent) with e | pid
        · simp [hr] at h
        · simp only [hr] at h
          have hrt := ih (dirname parent) (basename parent) pid hr
          rcases hgi : getINode s (parent ++ "/" ++ filename) pid with e | i
          · simp [hgi] at h
          · simp only [hgi] at h
            obtain ⟨hgt, hrdt⟩ := step_congr hag hgi h
            simp [hrt, hgt, hrdt]

/-- Fuel monotonicity: a resolution that succeeds with some fuel succeeds
identically with any larger fuel. -/
theorem findINodeIdAux_mono {s : KVStore} :
    ∀ f f' parent filename r, f ≤ f' →
      findINodeIdAux s f parent filename = .ok r →
      findINodeIdAux s f' parent filename = .ok r := by
  intro f
  induction f with
  | zero =>
      intro f' parent filename r hle h
      unfold findINodeIdAux at h
      simp at h
  | succ n ih =>
      intro f' parent filename r hle h
      rcases f' with _ | m
      · omega
      · unfold findINodeIdAux at h ⊢
        by_cases hp : parent = "/"
        · simp only [hp, if_true] at h ⊢
          exact h
        · simp only [hp, if_false] at h ⊢
          rcases hr : findINodeIdAux s n (dirname parent) (basename parent) with e | pid
          · simp [hr] at h
          · have hr' := ih m (dirname parent) (basename parent) pid (by omega) hr
            simp only [hr] at h
            simp only [hr']
            exact h

/-- Two successful resolutions of the same path (any fuels) agree. -/
theorem findINodeIdAux_unique {s : KVStore} {f₁ f₂ : Nat}
    {parent filename r₁ r₂ : String}
    (h₁ : findINodeIdAux s f₁ parent filename = .ok r₁)
    (h₂ : findINodeIdAux s f₂ parent filename = .ok r₂) : r₁ = r₂ := by
  have g₁ := findINodeIdAux_mono f₁ (f₁ + f₂) parent filename r₁ (by omega) h₁
  have g₂ := findINodeIdAux_mono f₂ (f₁ + f₂) parent filename r₂ (by omega) h₂
  exact Except.ok.inj (g₁.symm.trans g₂)

theorem KVStore.put_true (s : KVStore) (k : String) (v : StoreValue) :
    s.put k v true = (s.set k v, true) := rfl

theorem KVStore.put_absent (s : KVStore) (k : String) (v : StoreValue)
    (h : s.get k = none) : s.put k v false = (s.set k v, true) := by
  simp [KVStore.put, h]

theorem mkStats_size (t sz m a b c u g : Nat) : (mkStats t sz m a b c u g).size = sz :=
  rfl

theorem Inode.toStats_size (i : Inode) : i.toStats.size = i.size := rfl

theorem Stats.clone_size (s : Stats) : s.clone.size = s.size := rfl

theorem mkStats_mode_of (t sz m a b c u g : Nat) (hm : m ≠ 0)
    (ht : ¬ m &&& S_IFMT = 0) : (mkStats t sz m a b c u g).mode = m := by
  simp [mkStats, hm, ht]

theorem orReg_testBit (m : Nat) :
    Nat.testBit ((m ||| S_IFREG) &&& 0xF000) 15 = true := by
  rw [Nat.testBit_land, Nat.testBit_lor]
  have h1 : Nat.testBit S_IFREG 15 = true := by decide
  have h2 : Nat.testBit 0xF000 15 = true := by decide
  simp [h1, h2]

theorem orReg_ne_dir (m : Nat) : ¬ (m ||| S_IFREG) &&& 0xF000 = S_IFDIR := by
  intro h
  have := orReg_testBit m
  rw [h] at this
  have : Nat.testBit S_IFDIR 15 = true := this
  revert this
  decide

theorem orReg_land_ne_zero (m : Nat) : ¬ (m ||| S_IFREG) &&& S_IFMT = 0 := by
  intro h
  have := orReg_testBit m
  have heq : (0xF000 : Nat) = S_IFMT := by decide
  rw [heq, h] at this
  revert this
  decide

theorem orReg_ne_zero (m : Nat) : m ||| S_IFREG ≠ 0 := by
  intro h
  have := orReg_land_ne_zero m
  rw [h] at this
  exact this rfl

/-- The inode created for a regular file is never a directory. -/
theorem orReg_isDirectory_false (i : Inode) (m : Nat)
    (h : i.mode = m ||| S_IFREG) : i.isDirectory = false := by
  unfold Inode.isDirectory
  rw [h]
  simp [orReg_ne_dir m]

/-- Shape of a successful commitNewFile: the preconditions it checked and
the exact final store (two fresh keys, then the updated parent listing). -/
theorem commitNewFile_ok {s t : KVStore} {p : String} {ftype mode : Nat}
    {cred : Cred} {data : StoreValue} {now : Nat} {fn : Inode}
    (h : commitNewFile s p ftype mode cred data now = (t, .ok fn)) :
    ∃ pn l,
      findINode s (dirname p) = .ok pn ∧
      getDirListing s (dirname p) pn = .ok l ∧
      p ≠ "/" ∧
      jsTruthyGet l (basename p) = none ∧
      fn = ⟨freshKey s, data.byteLength, mode ||| ftype, now, now, now,
        cred.uid, cred.gid⟩ ∧
      t = ((s.set (freshKey s) data).set
            (freshKey (s.set (freshKey s) data)) (.node fn)).set pn.id
            (.dir (alistSet l (basename p)
              (freshKey (s.set (freshKey s) data)))) := by
  unfold commitNewFile at h
  rcases h1 : findINode s (dirname p) with e | pn
  · simp [h1] at h
  · simp only [h1] at h
    rcases h2 : getDirListing s (dirname p) pn with e | l
    · simp [h2] at h
    · simp only [h2] at h
      by_cases h3 : pn.toStats.hasAccess 4 cred
      · by_cases h4 : p = "/"
        · simp [h3, h4] at h
        · by_cases h5 : (jsTruthyGet l (basename p)).isSome
          · simp [h3, h4, h5] at h
          · have h6 : jsTruthyGet l (basename p) = none := by
              rcases h6 : jsTruthyGet l (basename p) with _ | v
              · rfl
              · rw [h6] at h5
                simp at h5
            simp [h3, h4, h6, addNewNode, KVStore.put, freshKey_get] at h
            obtain ⟨ht, hfn⟩ := h
            refine ⟨pn, l, by simp [h1], by simp [h2], h4, h6, hfn.symm, ?_⟩
            rw [← ht, ← hfn]
      · simp [h3] at h

theorem mkPreloadFile_ok {path : String} {flag : FileFlag} {st : Stats}
    {c : List Nat} {f : PreloadFile} (h : mkPreloadFile path flag st c = .ok f) :
    f = ⟨path, flag, st, c, 0, false⟩ := by
  unfold mkPreloadFile at h
  by_cases hc : (decide (st.size ≠ c.length) && flag.isReadable) = true
  · rw [if_pos hc] at h
    cases h
  · rw [if_neg hc] at h
    exact (Except.ok.inj h).symm

theorem createFileSync_ok {s t : KVStore} {p : String} {flag : FileFlag}
    {mode : Nat} {cred : Cred} {now : Nat} {fd : PreloadFile}
    (h : createFileSync s p flag mode cred now = (t, .ok fd)) :
    ∃ fn, commitNewFile s p S_IFREG mode cred (.blob []) now = (t, .ok fn) ∧
      fd = ⟨p, flag, fn.toStats, [], 0, false⟩ := by
  unfold createFileSync at h
  rcases hc : commitNewFile s p S_IFREG mode cred (.blob []) now with ⟨t', r⟩
  rw [hc] at h
  rcases r with e | fn
  · simp at h
  · simp only at h
    rcases hm : mkPreloadFile p flag fn.toStats [] with e | fd'
    · rw [hm] at h
      simp at h
    · rw [hm] at h
      simp only at h
      obtain ⟨h1, h2⟩ := Prod.mk.injEq .. ▸ h
      refine ⟨fn, ?_, ?_⟩
      · rw [h1]
      · rw [← Except.ok.inj h2]
        exact mkPreloadFile_ok hm

theorem openSyncKV_w_ok {s t : KVStore} {p : String} {mode : Nat} {cred : Cred}
    {now : Nat} {fd : PreloadFile}
    (h : openSyncKV s p ⟨"w"⟩ mode cred now = (t, .ok fd)) :
    ∃ s₁ m', createFileSync s₁ p ⟨"w"⟩ m' cred now = (t, .ok fd) := by
  unfold openSyncKV at h
  rcases hs : statSync s p cred with e | stats
  · rw [hs] at h
    have hact : FileFlag.pathNotExistsAction ⟨"w"⟩ = ActionType.CREATE_FILE := by
      decide
    rw [hact] at h
    rcases hp : statSync s (dirname p) cred with e' | ps
    · rw [hp] at h
      simp at h
    · rw [hp] at h
      by_cases hd : ps.isDirectory
      · simp only [hd, Bool.not_true, Bool.false_eq_true, if_false, if_neg,
          not_false_eq_true] at h
        exact ⟨s, mode, h⟩
      · simp [Bool.not_eq_true] at hd
        simp [hd] at h
  · rw [hs] at h
    by_cases ha : stats.hasAccess mode cred
    · have hact : FileFlag.pathExistsAction ⟨"w"⟩ = ActionType.TRUNCATE_FILE := by
        decide
      simp only [ha, hact, Bool.not_true, Bool.false_eq_true, if_false, if_neg,
        not_false_eq_true] at h
      rcases hu : unlinkSync s p cred with ⟨s1, r⟩
      rw [hu] at h
      rcases r with e | u
      · simp at h
      · simp only at h
        exact ⟨s1, stats.mode, h⟩
    · simp [Bool.not_eq_true] at ha
      simp [ha] at h

theorem jsOverwrite (D : List Nat) (n m : Nat) (hn : n = D.length)
    (hm : m = D.length) :
    jsSet (List.replicate n 0) (jsSlice D 0 m) 0 = .ok D := by
  subst hn
  subst hm
  unfold jsSet jsSlice
  simp

theorem fileWriteSync_fresh (s : KVStore) (p : String) (st : Stats)
    (D : List Nat) (now : Nat) (hsz : st.size = 0) :
    fileWriteSync s ⟨p, ⟨"w"⟩, st, [], 0, false⟩ D 0 D.length (some 0) now =
      (s, ⟨p, ⟨"w"⟩, { st with size := D.length, mtimeMs := now }, D,
        D.length, true⟩, .ok D.length) := by
  have hwflag : (⟨"w"⟩ : FileFlag).isWriteable = true := by decide
  have hsflag : (⟨"w"⟩ : FileFlag).isSynchronous = false := by decide
  unfold fileWriteSync PreloadFile.writeSyncP
  rcases D with _ | ⟨d, D'⟩
  · rcases st with ⟨sz, md, a, m, c, u, g⟩
    simp only [mkStats_size] at hsz
    subst hsz
    simp [hwflag, hsflag, jsSet, jsSlice]
  · have hlen : (0 : Nat) < (d :: D').length := by simp
    have hpos : (0 : Nat) + (d :: D').length = (d :: D').length := by omega
    simp only [hwflag, hsflag, Bool.not_true, Bool.false_eq_true, if_neg,
      not_false_eq_true, hpos]
    rw [hsz]
    simp only [hlen, if_true, List.length_nil, List.nil_append]
    simp only [Nat.sub_zero]
    rw [jsOverwrite (d :: D') (d :: D').length (d :: D').length rfl rfl]
    simp [hsflag]

/-- An update that reports no change leaves the inode untouched. -/
theorem Inode.update_not_changed (i : Inode) (st : Stats)
    (h : (i.update st).2 = false) : (i.update st).1 = i := by
  rw [Inode.update_eq] at h ⊢
  simp only [Bool.or_eq_false_iff, decide_eq_false_iff_not, not_not] at h
  obtain ⟨⟨⟨⟨⟨h1, h2⟩, h3⟩, h4⟩, h5⟩, h6⟩ := h
  rcases i with ⟨id, sz, md, a, m, c, u, g⟩
  simp only at h1 h2 h3 h4 h5 h6
  simp [h1, h2, h3, h4, h5, h6]

/-- ResolveAgree when the target differs at one blob key and one
non-directory inode key. -/
theorem resolveAgree_two (s1 s2 : KVStore) (k1 k2 : String)
    (hb : ∃ b, s1.get k1 = some (.blob b))
    (hn : ∃ i, s1.get k2 = some (.node i) ∧ i.isDirectory = false)
    (hothers : ∀ k, k ≠ k1 → k ≠ k2 → s2.get k = s1.get k) :
    ResolveAgree s1 s2 := by
  intro k
  by_cases h1 : k = k1
  · subst h1
    exact Or.inr (Or.inr (Or.inl hb))
  · by_cases h2 : k = k2
    · subst h2
      exact Or.inr (Or.inr (Or.inr (Or.inl hn)))
    · exact Or.inl (hothers k h1 h2)

/-- ResolveAgree for the commitNewFile transition: two fresh keys plus a
listing extended at a previously-falsy name. -/
theorem resolveAgree_commit (sA : KVStore) (data : StoreValue) (fn : Inode)
    (pnid : String) (l : List (String × String)) (bname : String)
    (hl : sA.get pnid = some (.dir l))
    (hfalsy : jsTruthyGet l bname = none) :
    ResolveAgree sA
      (((sA.set (freshKey sA) data).set
        (freshKey (sA.set (freshKey sA) data)) (.node fn)).set pnid
        (.dir (alistSet l bname (freshKey (sA.set (freshKey sA) data))))) := by
  set dk := freshKey sA with hdk
  set s' := sA.set dk data with hs'
  set nk := freshKey s' with hnk
  intro k
  by_cases hp : k = pnid
  · subst hp
    refine Or.inr (Or.inr (Or.inr (Or.inr ⟨l, bname, nk, hl, ?_, hfalsy⟩)))
    exact KVStore.get_set_self _ _ _
  · by_cases h2 : k = nk
    · subst h2
      refine Or.inr (Or.inl ?_)
      have h3 : s'.get nk = none := freshKey_get s'
      have h4 : nk ≠ dk := by
        intro he
        rw [he] at h3
        rw [hs'] at h3
        rw [KVStore.get_set_self] at h3
        cases h3
      rw [hs'] at h3
      rw [KVStore.get_set_ne _ _ _ _ h4] at h3
      exact h3
    · by_cases h1 : k = dk
      · subst h1
        exact Or.inr (Or.inl (freshKey_get sA))
      · refine Or.inl ?_
        rw [KVStore.get_set_ne _ _ _ _ hp, KVStore.get_set_ne _ _ _ _ h2,
          KVStore.get_set_ne _ _ _ _ h1]

/-- Running readFile over a store where path p resolves to an inode whose
size matches its data blob returns exactly those bytes. -/
theorem readFileKV_after {s2 : KVStore} {p fid : String} {finF : Inode}
    {D : List Nat} {nowr : Nat}
    (hres : findINodeId s2 (dirname p) (basename p) = .ok fid)
    (hget : s2.get fid = some (.node finF))
    (hdata : s2.get finF.id = some (.blob D))
    (hsize : finF.size = D.length) :
    (readFileKV s2 p ⟨"r"⟩ Cred.Root nowr).2 = .ok D := by
  have hfind : findINode s2 p = .ok finF := by
    unfold findINode
    rw [hres]
    simp [getINode, hget]
  have hstat : statSync s2 p Cred.Root = .ok finF.toStats := by
    unfold statSync
    rw [hfind]
    simp [hasAccess_Root]
  have hopen : openFileSync s2 p ⟨"r"⟩ Cred.Root =
      .ok ⟨p, ⟨"r"⟩, finF.toStats, D, 0, false⟩ := by
    unfold openFileSync
    rw [hfind]
    simp only [hdata, hasAccess_Root, Bool.not_true, Bool.false_eq_true,
      if_false, if_neg, not_false_eq_true]
    unfold mkPreloadFile
    simp [Inode.toStats_size, hsize]
  have hact : FileFlag.pathExistsAction ⟨"r"⟩ = ActionType.NOP := by decide
  have hosync : openSyncKV s2 p ⟨"r"⟩ 0o644 Cred.Root nowr =
      (s2, .ok ⟨p, ⟨"r"⟩, finF.toStats, D, 0, false⟩) := by
    unfold openSyncKV
    rw [hstat]
    simp only [hasAccess_Root, Bool.not_true, Bool.false_eq_true, if_false,
      if_neg, not_false_eq_true, hact]
    rw [hopen]
  have hrdflag : (⟨"r"⟩ : FileFlag).isReadable = true := by decide
  have hsz2 : (Stats.clone finF.toStats).size = D.length := by
    rw [Stats.clone_size, Inode.toStats_size, hsize]
  unfold readFileKV
  rw [hosync]
  simp only
  rw [hsz2]
  unfold PreloadFile.readSync
  simp only [hrdflag, Bool.not_true, Bool.false_eq_true, if_false, if_neg,
    not_false_eq_true]
  have hnogrow : ¬ 0 + D.length > (⟨p, ⟨"r"⟩, finF.toStats, D, 0,
      false⟩ : PreloadFile).stat.size := by
    simp [Inode.toStats_size, hsize]
  simp only [hnogrow, if_false, if_neg, not_false_eq_true]
  rw [jsOverwrite D D.length (0 + D.length) rfl (by omega)]
  simp [fileCloseSync]

/-- Root-with-name unfolding of the resolver. -/
theorem findINodeIdAux_root (s : KVStore) (fuel : Nat) (filename : String)
    (hf : filename ≠ "") :
    findINodeIdAux s (fuel + 1) "/" filename =
      match getINode s "/" ROOT_NODE_ID with
      | .error e => .error e
      | .ok inode => readDirectoryStep s "/" filename inode := by
  unfold findINodeIdAux
  simp [hf]

/-- Root-empty unfolding: the resolver short-circuits to the root id. -/
theorem findINodeIdAux_rootEmpty (s : KVStore) (fuel : Nat) :
    findINodeIdAux s (fuel + 1) "/" "" = .ok ROOT_NODE_ID := by
  unfold findINodeIdAux
  simp

/-- Non-root unfolding of the resolver. -/
theorem findINodeIdAux_step (s : KVStore) (fuel : Nat) (parent filename : String)
    (hp : parent ≠ "/") :
    findINodeIdAux s (fuel + 1) parent filename =
      match findINodeIdAux s fuel (dirname parent) (basename parent) with
      | .error e => .error e
      | .ok pid =>
          match getINode s (parent ++ "/" ++ filename) pid with
          | .error e => .error e
          | .ok inode => readDirectoryStep s parent filename inode := by
  simp only [findINodeIdAux]
  simp [hp]

/-- Store lookups after the three writes of a successful commitNewFile:
the two fresh keys were absent before, are distinct from each other and
from the parent id, and every other key is untouched. -/
theorem commit_store_facts {sA : KVStore} {data : StoreValue} (fn : Inode)
    {pnid : String} {l : List (String × String)} (bname : String) {dk nk : String}
    (hdk : dk = freshKey sA) (hnk : nk = freshKey (sA.set dk data))
    (hl : sA.get pnid = some (.dir l)) :
    sA.get dk = none ∧
    sA.get nk = none ∧
    nk ≠ dk ∧ dk ≠ pnid ∧ nk ≠ pnid ∧
    (((sA.set dk data).set nk (.node fn)).set pnid
        (.dir (alistSet l bname nk))).get pnid =
      some (.dir (alistSet l bname nk)) ∧
    (((sA.set dk data).set nk (.node fn)).set pnid
        (.dir (alistSet l bname nk))).get nk = some (.node fn) ∧
    (((sA.set dk data).set nk (.node fn)).set pnid
        (.dir (alistSet l bname nk))).get dk = some data ∧
    (∀ k, k ≠ pnid → k ≠ nk → k ≠ dk →
      (((sA.set dk data).set nk (.node fn)).set pnid
        (.dir (alistSet l bname nk))).get k = sA.get k) := by
  have hdknone : sA.get dk = none := by rw [hdk]; exact freshKey_get sA
  have hnk' : (sA.set dk data).get nk = none := by
    rw [hnk]
    exact freshKey_get _
  have hnkdk : nk ≠ dk := by
    intro h
    rw [h, KVStore.get_set_self] at hnk'
    cases hnk'
  have hnknone : sA.get nk = none := by
    rw [← KVStore.get_set_ne sA dk nk data hnkdk]
    exact hnk'
  have hdkpn : dk ≠ pnid := by
    intro h
    rw [h, hl] at hdknone
    cases hdknone
  have hnkpn : nk ≠ pnid := by
    intro h
    rw [h, hl] at hnknone
    cases hnknone
  refine ⟨hdknone, hnknone, hnkdk, hdkpn, hnkpn, ?_, ?_, ?_, ?_⟩
  · exact KVStore.get_set_self _ _ _
  · rw [KVStore.get_set_ne _ _ _ _ hnkpn, KVStore.get_set_self]
  · rw [KVStore.get_set_ne _ _ _ _ hdkpn,
      KVStore.get_set_ne _ _ _ _ (fun h => hnkdk h.symm), KVStore.get_set_self]
  · intro k h1 h2 h3
    rw [KVStore.get_set_ne _ _ _ _ h1, KVStore.get_set_ne _ _ _ _ h2,
      KVStore.get_set_ne _ _ _ _ h3]

/-- After a successful commitNewFile, any successful re-resolution of the
committed path over the new store yields the freshly allocated inode key
(except for the root-empty path shape, which never consults listings). -/
theorem resolved_id_after_commit
    {sA : KVStore} {p : String} {data : StoreValue} {fn pn : Inode}
    {l : List (String × String)} {dk nk fid : String}
    (hdk : dk = freshKey sA) (hnk : nk = freshKey (sA.set dk data))
    (hpn : findINode sA (dirname p) = .ok pn)
    (hdl : getDirListing sA (dirname p) pn = .ok l)
    (hfalsy : jsTruthyGet l (basename p) = none)
    (hX : ¬ (dirname p = "/" ∧ basename p = ""))
    (hres : findINodeId
      (((sA.set dk data).set nk (.node fn)).set pn.id
        (.dir (alistSet l (basename p) nk)))
      (dirname p) (basename p) = .ok fid) :
    fid = nk := by
  obtain ⟨hpdir, hpl⟩ := getDirListing_ok hdl
  obtain ⟨hdknone, hnknone, hnkdk, hdkpn, hnkpn, hg_pn, hg_nk, hg_dk, hkeep⟩ :=
    commit_store_facts fn (basename p) hdk hnk hpl
  have hnkne : nk ≠ "" := by
    rw [hnk]
    exact freshKey_ne_empty _
  have hag : ResolveAgree sA
      (((sA.set dk data).set nk (.node fn)).set pn.id
        (.dir (alistSet l (basename p) nk))) := by
    subst hdk
    subst hnk
    exact resolveAgree_commit sA data fn pn.id l (basename p) hpl hfalsy
  have hjs : jsTruthyGet (alistSet l (basename p) nk) (basename p) = some nk :=
    jsTruthyGet_alistSet_self l (basename p) nk hnkne
  have hstep : readDirectoryStep
      (((sA.set dk data).set nk (.node fn)).set pn.id
        (.dir (alistSet l (basename p) nk)))
      (dirname p) (basename p) pn = .ok nk := by
    unfold readDirectoryStep getDirListing
    simp only [hpdir, Bool.not_true, Bool.false_eq_true, if_false, if_neg,
      not_false_eq_true, hg_pn, hjs]
  by_cases hq : dirname p = "/"
  · have hbn : basename p ≠ "" := fun hbe => hX ⟨hq, hbe⟩
    rw [hq] at hpn
    obtain ⟨rid, hrid, hrootget⟩ := findINode_ok hpn
    have hdd : dirname "/" = "/" := by decide
    have hbb : basename "/" = "" := by decide
    rw [hdd, hbb] at hrid
    unfold findINodeId at hrid
    rw [findINodeIdAux_rootEmpty] at hrid
    have hrr : rid = ROOT_NODE_ID := (Except.ok.inj hrid).symm
    rw [hrr] at hrootget
    have hrootpn : ROOT_NODE_ID ≠ pn.id := by
      intro h
      rw [h] at hrootget
      rw [hpl] at hrootget
      cases hrootget
    have hrootnk : ROOT_NODE_ID ≠ nk := by
      intro h
      rw [h] at hrootget
      rw [hnknone] at hrootget
      cases hrootget
    have hrootdk : ROOT_NODE_ID ≠ dk := by
      intro h
      rw [h] at hrootget
      rw [hdknone] at hrootget
      cases hrootget
    have hs1root : (((sA.set dk data).set nk (.node fn)).set pn.id
        (.dir (alistSet l (basename p) nk))).get ROOT_NODE_ID =
        some (.node pn) := by
      rw [hkeep ROOT_NODE_ID hrootpn hrootnk hrootdk]
      exact hrootget
    rw [hq] at hres
    unfold findINodeId at hres
    rw [findINodeIdAux_root _ _ _ hbn] at hres
    have hgi : getINode
        (((sA.set dk data).set nk (.node fn)).set pn.id
          (.dir (alistSet l (basename p) nk))) "/" ROOT_NODE_ID = .ok pn := by
      unfold getINode
      rw [hs1root]
    rw [hgi] at hres
    simp only at hres
    rw [← hq] at hres
    exact (Except.ok.inj (hstep.symm.trans hres)).symm
  · obtain ⟨rid, hrid, hridget⟩ := findINode_ok hpn
    unfold findINodeId at hrid
    have hrid1 := findINodeIdAux_congr hag _ _ _ _ hrid
    unfold findINodeId at hres
    rw [findINodeIdAux_step _ _ _ _ hq] at hres
    rcases hinner : findINodeIdAux
        (((sA.set dk data).set nk (.node fn)).set pn.id
          (.dir (alistSet l (basename p) nk)))
        (strLen (dirname p)) (dirname (dirname p)) (basename (dirname p))
        with e | X
    · rw [hinner] at hres
      cases hres
    · rw [hinner] at hres
      simp only at hres
      have hXrid : X = rid := findINodeIdAux_unique hinner hrid1
      rw [hXrid] at hres
      have hridpn : rid ≠ pn.id := by
        intro h
        rw [h] at hridget
        have := hpl.symm.trans hridget
        simp at this
      have hridnk : rid ≠ nk := by
        intro h
        rw [h] at hridget
        rw [hnknone] at hridget
        cases hridget
      have hriddk : rid ≠ dk := by
        intro h
        rw [h] at hridget
        rw [hdknone] at hridget
        cases hridget
      have hs1rid : (((sA.set dk data).set nk (.node fn)).set pn.id
          (.dir (alistSet l (basename p) nk))).get rid = some (.node pn) := by
        rw [hkeep rid hridpn hridnk hriddk]
        exact hridget
      have hgi : getINode
          (((sA.set dk data).set nk (.node fn)).set pn.id
            (.dir (alistSet l (basename p) nk)))
          (dirname p ++ "/" ++ basename p) rid = .ok pn := by
        unfold getINode
        rw [hs1rid]
      rw [hgi] at hres
      simp only at hres
      exact (Except.ok.inj (hstep.symm.trans hres)).symm

/-- A path that resolves as the filesystem root pins down the root
record of the store. -/
theorem findINode_root_ok {sA : KVStore} {pn : Inode}
    (h : findINode sA "/" = .ok pn) :
    sA.get ROOT_NODE_ID = some (.node pn) := by
  obtain ⟨rid, hrid, hget⟩ := findINode_ok h
  have hdd : dirname "/" = "/" := by decide
  have hbb : basename "/" = "" := by decide
  rw [hdd, hbb] at hrid
  unfold findINodeId at hrid
  rw [findINodeIdAux_rootEmpty] at hrid
  rw [Except.ok.inj hrid]
  exact hget

/-- Shape of a successful _syncSync: the re-resolved inode id and inode,
and the exact final store. -/
theorem syncSyncFS_ok {s t : KVStore} {p : String} {D : List Nat} {st : Stats}
    (h : syncSyncFS s p D st = (t, .ok ())) :
    ∃ fid fin, findINodeId s (dirname p) (basename p) = .ok fid ∧
      getINode s p fid = .ok fin ∧
      t = if (fin.update st).2
          then (s.set (fin.update st).1.id (.blob D)).set fid
            (.node (fin.update st).1)
          else s.set (fin.update st).1.id (.blob D) := by
  unfold syncSyncFS at h
  rcases hres : findINodeId s (dirname p) (basename p) with e | fid
  · rw [hres] at h
    simp at h
  · rw [hres] at h
    simp only at h
    rcases hgi : getINode s p fid with e | fin
    · rw [hgi] at h
      simp at h
    · rw [hgi] at h
      simp only at h
      refine ⟨fid, fin, rfl, hgi, ?_⟩
      have h1 := (Prod.mk.injEq .. ▸ h).1
      rcases hu : fin.update st with ⟨fin', chg⟩
      simp only [hu, KVStore.put_true] at h1 ⊢
      exact h1.symm

theorem Inode.update_id (i : Inode) (st : Stats) :
    (i.update st).1.id = i.id := by
  rw [Inode.update_eq]

theorem Inode.update_size (i : Inode) (st : Stats) :
    (i.update st).1.size = st.size := by
  rw [Inode.update_eq]

/-- Core of the write/read round trip over the synchronous key-value
engine: a successful writeFile leaves a store from which readFile
returns exactly the written bytes. -/
theorem write_read_core {s s' : KVStore} {p : String} {D : List Nat}
    {noww nowr : Nat}
    (hw : writeFileKV s p D ⟨"w"⟩ 0o644 Cred.Root noww = (s', .ok ())) :
    (readFileKV s' p ⟨"r"⟩ Cred.Root nowr).2 = .ok D := by
  unfold writeFileKV at hw
  rcases ho : openSyncKV s p ⟨"w"⟩ 0o644 Cred.Root noww with ⟨s1, r⟩
  rw [ho] at hw
  rcases r with e | fd
  · simp at hw
  · simp only at hw
    obtain ⟨sA, m', hcf⟩ := openSyncKV_w_ok ho
    obtain ⟨fn, hcm, hfd⟩ := createFileSync_ok hcf
    obtain ⟨pn, l, hpn, hdl, hpr, hfalsy, hfn, hs1⟩ := commitNewFile_ok hcm
    subst hfd
    have hsz : fn.toStats.size = 0 := by
      rw [Inode.toStats_size, hfn]
      rfl
    rw [fileWriteSync_fresh s1 p fn.toStats D noww hsz] at hw
    simp only at hw
    rcases hcl : fileCloseSync s1
        ⟨p, ⟨"w"⟩, { fn.toStats with size := D.length, mtimeMs := noww },
          D, D.length, true⟩ with ⟨s3, f3, r3⟩
    rw [hcl] at hw
    rcases r3 with e2 | u3
    · simp at hw
    · simp only at hw
      cases u3
      obtain ⟨hs3, -⟩ := Prod.mk.injEq .. ▸ hw
      subst hs3
      unfold fileCloseSync at hcl
      simp only at hcl
      rcases hsy : syncSyncFS s1 p D
          { fn.toStats with size := D.length, mtimeMs := noww } with ⟨s2x, ry⟩
      rw [hsy] at hcl
      rcases ry with ey | uy
      · simp at hcl
      · simp only at hcl
        cases uy
        obtain ⟨hs2x, -⟩ := Prod.mk.injEq .. ▸ hcl
        subst hs2x
        obtain ⟨fid, fin, hres, hgi, hs2xv⟩ := syncSyncFS_ok hsy
        set stW : Stats := { fn.toStats with size := D.length, mtimeMs := noww } with hstW
        set dk := freshKey sA with hdk
        set nk := freshKey (sA.set dk (.blob [])) with hnk
        obtain ⟨hpdir, hpl⟩ := getDirListing_ok hdl
        obtain ⟨hdkn, hnkn, hnkdk, hdkpn, hnkpn, hg_pn, hg_nk, hg_dk, hkeep⟩ :=
          commit_store_facts fn (basename p) hdk hnk hpl
        have hfnid : fn.id = dk := by rw [hfn]
        have hfnmode : fn.mode = m' ||| S_IFREG := by rw [hfn]
        by_cases hXc : dirname p = "/" ∧ basename p = ""
        · -- the anomalous root-empty path shape: resolution returns the
          -- root id without consulting any listing
          obtain ⟨hq, hbe⟩ := hXc
          have hresR := hres
          rw [hq, hbe] at hresR
          unfold findINodeId at hresR
          rw [findINodeIdAux_rootEmpty] at hresR
          have hfid : ROOT_NODE_ID = fid := Except.ok.inj hresR
          have hpn' := hpn
          rw [hq] at hpn'
          have hroot := findINode_root_ok hpn'
          have hrootpn : ROOT_NODE_ID ≠ pn.id := by
            intro hh
            rw [hh, hpl] at hroot
            simp at hroot
          have hrootnk : ROOT_NODE_ID ≠ nk := by
            intro hh
            rw [hh, hnkn] at hroot
            cases hroot
          have hrootdk : ROOT_NODE_ID ≠ dk := by
            intro hh
            rw [hh, hdkn] at hroot
            cases hroot
          have hs1root : s1.get ROOT_NODE_ID = some (.node pn) := by
            rw [hs1]
            rw [hkeep ROOT_NODE_ID hrootpn hrootnk hrootdk]
            exact hroot
          have hginT := getINode_ok hgi
          rw [← hfid] at hginT
          rw [hs1root] at hginT
          simp only [Option.some.injEq, StoreValue.node.injEq] at hginT
          subst hginT
          rw [← hfid] at hs2xv
          have hpnid : (pn.update stW).1.id = pn.id := Inode.update_id pn _
          have hres2 : findINodeId s2x (dirname p) (basename p) =
              .ok ROOT_NODE_ID := by
            rw [hq, hbe]
            unfold findINodeId
            rw [findINodeIdAux_rootEmpty]
          have hsize2 : (pn.update stW).1.size = D.length := by
            rw [Inode.update_size, hstW]
          by_cases hchg : (pn.update stW).2 = true
          · rw [if_pos hchg] at hs2xv
            rw [hpnid] at hs2xv
            have hget2 : s2x.get ROOT_NODE_ID =
                some (.node (pn.update stW).1) := by
              rw [hs2xv, KVStore.get_set_self]
            have hdata2 : s2x.get (pn.update stW).1.id =
                some (.blob D) := by
              rw [hpnid, hs2xv,
                KVStore.get_set_ne _ _ _ _ (fun hh => hrootpn hh.symm),
                KVStore.get_set_self]
            exact readFileKV_after hres2 hget2 hdata2 hsize2
          · have hchgf : (pn.update stW).2 = false := by
              revert hchg
              cases (pn.update stW).2 <;> simp
            have hnc := Inode.update_not_changed pn _ hchgf
            rw [if_neg hchg] at hs2xv
            rw [hpnid] at hs2xv
            have hget2 : s2x.get ROOT_NODE_ID =
                some (.node (pn.update stW).1) := by
              rw [hnc, hs2xv, KVStore.get_set_ne _ _ _ _ hrootpn]
              exact hs1root
            have hdata2 : s2x.get (pn.update stW).1.id =
                some (.blob D) := by
              rw [hpnid, hs2xv, KVStore.get_set_self]
            exact readFileKV_after hres2 hget2 hdata2 hsize2
        · -- the normal path: the committed path re-resolves to the fresh
          -- inode key
          have hresT := hres
          rw [hs1] at hresT
          have hfid : fid = nk :=
            resolved_id_after_commit hdk hnk hpn hdl hfalsy hXc hresT
          have hginT := getINode_ok hgi
          rw [hfid] at hginT
          rw [hs1] at hginT
          rw [hg_nk] at hginT
          simp only [Option.some.injEq, StoreValue.node.injEq] at hginT
          subst hginT
          rw [hfid] at hs2xv
          have hffid : (fn.update stW).1.id = dk := by
            rw [Inode.update_id]
            exact hfnid
          have hsize2 : (fn.update stW).1.size = D.length := by
            rw [Inode.update_size, hstW]
          by_cases hchg : (fn.update stW).2 = true
          · rw [if_pos hchg] at hs2xv
            rw [hffid] at hs2xv
            have hag2 : ResolveAgree s1 s2x := by
              refine resolveAgree_two s1 s2x dk nk ⟨[], ?_⟩ ⟨fn, ?_, ?_⟩ ?_
              · rw [hs1]
                exact hg_dk
              · rw [hs1]
                exact hg_nk
              · exact orReg_isDirectory_false fn m' hfnmode
              · intro k h1 h2
                rw [hs2xv, KVStore.get_set_ne _ _ _ _ h2,
                  KVStore.get_set_ne _ _ _ _ h1]
            have hres2 : findINodeId s2x (dirname p) (basename p) = .ok nk := by
              unfold findINodeId at hres ⊢
              rw [hfid] at hres
              exact findINodeIdAux_congr hag2 _ _ _ _ hres
            have hget2 : s2x.get nk = some (.node (fn.update stW).1) := by
              rw [hs2xv, KVStore.get_set_self]
            have hdata2 : s2x.get (fn.update stW).1.id =
                some (.blob D) := by
              rw [hffid, hs2xv,
                KVStore.get_set_ne _ _ _ _ (fun hh => hnkdk hh.symm),
                KVStore.get_set_self]
            exact readFileKV_after hres2 hget2 hdata2 hsize2
          · have hchgf : (fn.update stW).2 = false := by
              revert hchg
              cases (fn.update stW).2 <;> simp
            have hnc := Inode.update_not_changed fn _ hchgf
            rw [if_neg hchg] at hs2xv
            rw [hffid] at hs2xv
            have hag2 : ResolveAgree s1 s2x := by
              refine resolveAgree_two s1 s2x dk nk ⟨[], ?_⟩ ⟨fn, ?_, ?_⟩ ?_
              · rw [hs1]
                exact hg_dk
              · rw [hs1]
                exact hg_nk
              · exact orReg_isDirectory_false fn m' hfnmode
              · intro k h1 h2
                rw [hs2xv, KVStore.get_set_ne _ _ _ _ h1]
            have hres2 : findINodeId s2x (dirname p) (basename p) = .ok nk := by
              unfold findINodeId at hres ⊢
              rw [hfid] at hres
              exact findINodeIdAux_congr hag2 _ _ _ _ hres
            have hget2 : s2x.get nk = some (.node (fn.update stW).1) := by
              rw [hnc, hs2xv, KVStore.get_set_ne _ _ _ _ hnkdk]
              rw [hs1]
              exact hg_nk
            have hdata2 : s2x.get (fn.update stW).1.id =
                some (.blob D) := by
              rw [hffid, hs2xv, KVStore.get_set_self]
            exact readFileKV_after hres2 hget2 hdata2 hsize2

end C1Infra

section ClaimC1

/-- C1: for every absolute path p whose parent directory exists on the
in-memory key-value backend, and every byte sequence D, writeFile(p, D)
followed by readFile(p) returns bytes equal to D.  Formalized over the
synchronous key-value engine: whenever the writeFile call succeeds (the
situation the claim describes — the parent resolves to an existing,
writable directory), the readFile that follows it over the resulting
store returns exactly D, at any timestamps. -/
theorem c1_write_read_roundtrip (s : KVStore) (p : String) (D : List Nat)
    (noww nowr : Nat)
    (hw : (writeFileKV s p D ⟨"w"⟩ 0o644 Cred.Root noww).2 = .ok ()) :
    (readFileKV (writeFileKV s p D ⟨"w"⟩ 0o644 Cred.Root noww).1
      p ⟨"r"⟩ Cred.Root nowr).2 = .ok D := by
  rcases he : writeFileKV s p D ⟨"w"⟩ 0o644 Cred.Root noww with ⟨s2, r⟩
  rw [he] at hw
  simp only at hw
  subst hw
  exact write_read_core he

/-- Witness: on a store holding just the root directory, writing the two
bytes "hi" to /f and reading /f back returns exactly those bytes. -/
theorem c1_witness :
    (readFileKV (writeFileKV (makeRootDirectory ⟨[]⟩ 0) "/f" [104, 105]
        ⟨"w"⟩ 0o644 Cred.Root 7).1 "/f" ⟨"r"⟩ Cred.Root 9).2 =
      .ok [104, 105] :=
  c1_write_read_roundtrip (makeRootDirectory ⟨[]⟩ 0) "/f" [104, 105] 7 9
    (by rfl)

end ClaimC1

end BFS
